import Mathlib

/-!
Verification of the simulation core of `untitled_space_game`.

The Rust sources are shallowly embedded:
* machine floats (`f32`, `glam::Vec3`, `glam::Quat`, …) are carried as inert
  bit-pattern payloads: no claim computes with float values, they are only
  stored, copied and compared for identity;
* fallible Rust code (`unwrap`, `todo!`) is embedded as `Except String`;
  a `.error` value marks the panic;
* `slotmap::SlotMap` (an external crate) is modelled from the spec as a
  generation-checked arena, see `SlotTable` below.
-/

/-- Inert payload standing for a Rust `f32`: the claims never compute with
float values, they only store and move them, so an `f32` is carried as its
bit pattern. -/
structure F32 where
  bits : Nat
deriving DecidableEq, Repr

instance : Inhabited F32 := ⟨⟨0⟩⟩

/-- `glam::Vec3` as a triple of inert `f32` payloads. -/
structure Vec3 where
  x : F32
  y : F32
  z : F32
deriving DecidableEq, Repr

/-- `glam::Vec3::ZERO`. -/
def Vec3.zero : Vec3 := ⟨⟨0⟩, ⟨0⟩, ⟨0⟩⟩

/-- `glam::Vec3::ONE` (payload bit pattern of 1.0f32). -/
def Vec3.one : Vec3 := ⟨⟨0x3f800000⟩, ⟨0x3f800000⟩, ⟨0x3f800000⟩⟩

/-- `glam::Quat` as four inert `f32` payloads. -/
structure Quat where
  x : F32
  y : F32
  z : F32
  w : F32
deriving DecidableEq, Repr

/-- `glam::Quat::IDENTITY` (payload bit pattern of (0,0,0,1)). -/
def Quat.identity : Quat := ⟨⟨0⟩, ⟨0⟩, ⟨0⟩, ⟨0x3f800000⟩⟩

/-- `Transform` from `src/transform.rs`. -/
structure Transform where
  position : Vec3
  rotation : Quat
  scale : Vec3
deriving DecidableEq, Repr

/-- `impl Default for Transform` from `src/transform.rs` lines 11-19:
position zero, identity rotation, unit scale. -/
def Transform.default : Transform :=
  { position := Vec3.zero, rotation := Quat.identity, scale := Vec3.one }

instance : Inhabited Transform := ⟨Transform.default⟩

/-- `Transform::new_pos` from `src/transform.rs`. -/
def Transform.new_pos (position : Vec3) : Transform :=
  { Transform.default with position := position }

/-- A 4x4 model matrix (`glam::Mat4` / the `[f32; 16]` instance payload).
`Mat4::from_scale_rotation_translation` is external (glam); since the core
never inspects matrix entries, the matrix is carried as the encoding of the
`(scale, rotation, translation)` data it was built from. -/
structure Mat4 where
  scale : Vec3
  rotation : Quat
  translation : Vec3
deriving DecidableEq, Repr

/-- `Transform::as_model_matrix` from `src/transform.rs` lines 29-31. -/
def Transform.as_model_matrix (t : Transform) : Mat4 :=
  { scale := t.scale, rotation := t.rotation, translation := t.position }

/-- `PerspectiveCamera` from `src/perspective_camera.rs`. -/
structure PerspectiveCamera where
  x_fov_deg : F32
  z_near : F32
deriving DecidableEq, Repr

/-- `PerspectiveCamera::new`. -/
def PerspectiveCamera.new (x_fov_deg z_near : F32) : PerspectiveCamera :=
  ⟨x_fov_deg, z_near⟩

/-! ## Generation-checked handle table

Modelled from the spec: the repository stores every keyed collection in
`slotmap::SlotMap` (and rapier arenas), whose implementation is an external
crate, not part of `src/`.  Spec section 4.1: "insert(value) -> handle;
get(handle) -> value-or-absent; remove(handle) -> removed value-or-absent.
Handles from a removed slot must never alias a handle returned after the
slot is reused for new data — achieved via a per-slot version counter
incremented on every removal; a handle carries the version it was issued
with and is rejected if the slot's current version differs."  Section 9:
"index+generation handle, array-of-slots with free-list reuse". -/

/-- An index + generation handle (spec section 3: "opaque, copyable
identifier (index + generation/version tag)").  Used for
`InstanceHandle`, `MeshHandle`, `MaterialHandle`, `EntityId`,
`RigidBodyHandle` and `ColliderHandle`. -/
structure Handle where
  idx : Nat
  version : Nat
deriving DecidableEq, Repr, Hashable

/-- Modelled from the spec (section 4.1, section 9): a slot-map arena.
Each slot carries its current version and, when occupied, a value;
freed slot indices are kept on a free list for reuse. -/
structure SlotTable (V : Type) where
  slots : List (Nat × Option V)
  free_list : List Nat
deriving Repr

namespace SlotTable

def empty {V : Type} : SlotTable V := ⟨[], []⟩

/-- `get(handle) -> value-or-absent`: the handle resolves only if its slot
exists, is occupied, and the slot's current version equals the version the
handle was issued with. -/
def get {V : Type} (t : SlotTable V) (h : Handle) : Option V :=
  match t.slots[h.idx]? with
  | some (ver, some v) => if ver = h.version then some v else none
  | _ => none

/-- `insert(value) -> handle`: reuse a free slot (keeping its bumped
version) or append a fresh slot with version 1. -/
def insert {V : Type} (t : SlotTable V) (v : V) : Handle × SlotTable V :=
  match t.free_list with
  | [] => (⟨t.slots.length, 1⟩, ⟨t.slots ++ [(1, some v)], []⟩)
  | i :: rest =>
    match t.slots[i]? with
    | some (ver, _) => (⟨i, ver⟩, ⟨t.slots.set i (ver, some v), rest⟩)
    | none => (⟨t.slots.length, 1⟩, ⟨t.slots ++ [(1, some v)], rest⟩)

/-- `remove(handle) -> removed value-or-absent`: on success the slot's
version counter is incremented and the slot index goes on the free list. -/
def remove {V : Type} (t : SlotTable V) (h : Handle) : Option V × SlotTable V :=
  match t.get h with
  | none => (none, t)
  | some v =>
    (some v, ⟨t.slots.set h.idx (h.version + 1, none), h.idx :: t.free_list⟩)

/-- The version currently stored at slot `i`, when the slot exists. -/
def versionAt {V : Type} (t : SlotTable V) (i : Nat) : Option Nat :=
  (t.slots[i]?).map Prod.fst

/-- The list of handles of currently occupied slots, in slot order
(the deterministic iteration order of the arena). -/
def liveHandles {V : Type} (t : SlotTable V) : List Handle :=
  (t.slots.enum.filterMap fun s =>
    match s with
    | (i, (ver, some _)) => some (⟨i, ver⟩ : Handle)
    | _ => none)

/-- The occupied entries in slot order, paired with their handles. -/
def liveEntries {V : Type} (t : SlotTable V) : List (Handle × V) :=
  (t.slots.enum.filterMap fun s =>
    match s with
    | (i, (ver, some v)) => some ((⟨i, ver⟩ : Handle), v)
    | _ => none)

end SlotTable

/-- One operation on a handle table (the operations of spec section 4.1). -/
inductive TableOp (V : Type) where
  | insert (v : V)
  | remove (h : Handle)

/-- Apply one table operation, discarding the returned handle / value. -/
def TableOp.apply {V : Type} (t : SlotTable V) : TableOp V → SlotTable V
  | .insert v => (t.insert v).2
  | .remove h => (t.remove h).2

/-- Run a sequence of table operations. -/
def SlotTable.run {V : Type} (t : SlotTable V) (ops : List (TableOp V)) : SlotTable V :=
  ops.foldl TableOp.apply t

namespace SlotTable

/-- A successful `get` pins the slot's current version to the handle's. -/
theorem versionAt_of_get {V : Type} {t : SlotTable V} {h : Handle} {v : V}
    (hg : t.get h = some v) : t.versionAt h.idx = some h.version := by
  unfold get at hg
  unfold versionAt
  cases hs : t.slots[h.idx]? with
  | none => rw [hs] at hg; exact absurd hg (by simp)
  | some s =>
    rw [hs] at hg
    obtain ⟨ver, val⟩ := s
    cases val with
    | none => exact absurd hg (by simp)
    | some w =>
      by_cases hv : ver = h.version
      · subst hv; simp [hs]
      · simp only [if_neg hv] at hg
        exact absurd hg (by simp)

/-- A successful `get` means the slot index is in bounds. -/
theorem idx_lt_of_get {V : Type} {t : SlotTable V} {h : Handle} {v : V}
    (hg : t.get h = some v) : h.idx < t.slots.length := by
  unfold get at hg
  cases hs : t.slots[h.idx]? with
  | none => rw [hs] at hg; exact absurd hg (by simp)
  | some s => exact (List.getElem?_eq_some.mp hs).1

/-- A slot in view means the slot index is in bounds. -/
theorem idx_lt_of_versionAt {V : Type} {t : SlotTable V} {i ver : Nat}
    (hv : t.versionAt i = some ver) : i < t.slots.length := by
  unfold versionAt at hv
  cases hs : t.slots[i]? with
  | none => rw [hs] at hv; exact absurd hv (by simp)
  | some s => exact (List.getElem?_eq_some.mp hs).1

/-- `insert` never changes the version stored at an existing slot. -/
theorem versionAt_insert {V : Type} (t : SlotTable V) (v : V) {i ver : Nat}
    (hv : t.versionAt i = some ver) : (t.insert v).2.versionAt i = some ver := by
  have hlt : i < t.slots.length := idx_lt_of_versionAt hv
  unfold versionAt at hv
  unfold insert
  split
  · show Option.map Prod.fst ((t.slots ++ [(1, some v)])[i]?) = some ver
    rw [List.getElem?_append_left hlt]
    exact hv
  · rename_i j rest hf
    split
    · rename_i ver1 val1 hs
      show Option.map Prod.fst ((t.slots.set j (ver1, some v))[i]?) = some ver
      by_cases hij : i = j
      · subst hij
        rw [List.getElem?_set_eq_of_lt _ hlt]
        rw [hs] at hv
        simpa using hv
      · rw [List.getElem?_set_ne (Ne.symm hij)]
        exact hv
    · show Option.map Prod.fst ((t.slots ++ [(1, some v)])[i]?) = some ver
      rw [List.getElem?_append_left hlt]
      exact hv

/-- `remove` never lowers the version stored at an existing slot. -/
theorem versionAt_remove {V : Type} (t : SlotTable V) (h : Handle) {i ver : Nat}
    (hv : t.versionAt i = some ver) :
    ∃ ver', (t.remove h).2.versionAt i = some ver' ∧ ver ≤ ver' := by
  have hlt : i < t.slots.length := idx_lt_of_versionAt hv
  unfold remove
  cases hg : t.get h with
  | none => exact ⟨ver, hv, le_refl ver⟩
  | some v =>
    by_cases hih : i = h.idx
    · have hvv : t.versionAt h.idx = some h.version := versionAt_of_get hg
      have hver : ver = h.version := by
        rw [← hih, hv] at hvv
        exact Option.some.inj hvv
      refine ⟨ver + 1, ?_, Nat.le_succ ver⟩
      show Option.map Prod.fst ((t.slots.set h.idx (h.version + 1, none))[i]?) = some (ver + 1)
      rw [hih, List.getElem?_set_eq_of_lt _ (by omega : h.idx < t.slots.length)]
      simp [hver]
    · refine ⟨ver, ?_, le_refl ver⟩
      show Option.map Prod.fst ((t.slots.set h.idx (h.version + 1, none))[i]?) = some ver
      rw [List.getElem?_set_ne (fun hhi => hih hhi.symm)]
      exact hv

/-- Slot versions never decrease under a single table operation. -/
theorem versionAt_le_apply {V : Type} (t : SlotTable V) (op : TableOp V) {i ver : Nat}
    (hv : t.versionAt i = some ver) :
    ∃ ver', (op.apply t).versionAt i = some ver' ∧ ver ≤ ver' := by
  cases op with
  | insert v => exact ⟨ver, versionAt_insert t v hv, le_refl ver⟩
  | remove h => exact versionAt_remove t h hv

/-- Slot versions never decrease under any sequence of table operations. -/
theorem versionAt_le_run {V : Type} (t : SlotTable V) (ops : List (TableOp V)) {i ver : Nat}
    (hv : t.versionAt i = some ver) :
    ∃ ver', (t.run ops).versionAt i = some ver' ∧ ver ≤ ver' := by
  induction ops generalizing t ver with
  | nil => exact ⟨ver, hv, le_refl ver⟩
  | cons op rest ih =>
    obtain ⟨ver1, h1, hle1⟩ := versionAt_le_apply t op hv
    obtain ⟨ver2, h2, hle2⟩ := ih _ h1
    exact ⟨ver2, h2, le_trans hle1 hle2⟩

/-- Removing a live handle bumps its slot's version counter past the
version the handle carries. -/
theorem versionAt_remove_self {V : Type} {t : SlotTable V} {h : Handle} {v : V}
    (hg : t.get h = some v) :
    (t.remove h).2.versionAt h.idx = some (h.version + 1) := by
  have hlt : h.idx < t.slots.length := idx_lt_of_get hg
  unfold remove
  rw [hg]
  show Option.map Prod.fst ((t.slots.set h.idx (h.version + 1, none))[h.idx]?)
      = some (h.version + 1)
  rw [List.getElem?_set_eq_of_lt _ hlt]
  rfl

/-- A slot version strictly above the handle's version rejects the handle. -/
theorem get_eq_none_of_version_lt {V : Type} {t : SlotTable V} {h : Handle} {ver : Nat}
    (hv : t.versionAt h.idx = some ver) (hgt : h.version < ver) : t.get h = none := by
  unfold get
  unfold versionAt at hv
  cases hs : t.slots[h.idx]? with
  | none => rfl
  | some s =>
    obtain ⟨ver0, val⟩ := s
    rw [hs] at hv
    have hvv : ver0 = ver := by simpa using hv
    cases val with
    | none => rfl
    | some w =>
      show (if ver0 = h.version then some w else none) = none
      rw [if_neg (by omega)]

end SlotTable

/-- C7: after a live handle is removed from a handle table, every later
`get` of that handle returns absent, across any further sequence of
`insert`/`remove` operations — including ones that reuse the freed slot —
so a removed handle never resolves to another still-live handle's value. -/
theorem SlotTable.removed_handle_never_resolves {V : Type} (t : SlotTable V) (h : Handle)
    (v : V) (hg : t.get h = some v) (ops : List (TableOp V)) :
    ((t.remove h).2.run ops).get h = none := by
  have h1 := SlotTable.versionAt_remove_self hg
  obtain ⟨ver', hv', hle⟩ := SlotTable.versionAt_le_run _ ops h1
  exact SlotTable.get_eq_none_of_version_lt hv' (by omega)

/-- Witness for C7: insert 5, remove its handle, then insert 7 (which
reuses the freed slot); the removed handle still reads back absent. -/
theorem SlotTable.removed_handle_never_resolves_witness :
    ((SlotTable.empty.insert (5 : Nat)).2.get (SlotTable.empty.insert (5 : Nat)).1
        = some 5) ∧
    ((((SlotTable.empty.insert (5 : Nat)).2.remove
        (SlotTable.empty.insert (5 : Nat)).1).2.run
        [TableOp.insert 7]).get (SlotTable.empty.insert (5 : Nat)).1 = none) :=
  ⟨by decide,
   SlotTable.removed_handle_never_resolves _ _ 5 (by decide) [TableOp.insert 7]⟩

/-! ## Association-list model of `std::collections::HashMap`

The renderer keys instance data by `HashMap`; an association list with
unique keys models it.  Iteration order of the real `HashMap` is
unspecified; every use below either does not depend on the order or has at
most one matching entry, where every order agrees. -/

/-- `HashMap::get`. -/
def alistLookup {K V : Type} [DecidableEq K] (m : List (K × V)) (k : K) : Option V :=
  match m with
  | [] => none
  | e :: rest => if e.1 = k then some e.2 else alistLookup rest k

/-- Drop every entry with the given key. -/
def alistErase {K V : Type} [DecidableEq K] (m : List (K × V)) (k : K) : List (K × V) :=
  match m with
  | [] => []
  | e :: rest => if e.1 = k then alistErase rest k else e :: alistErase rest k

/-- `HashMap::insert`: replace any entry under the key. -/
def alistInsert {K V : Type} [DecidableEq K] (m : List (K × V)) (k : K) (v : V) :
    List (K × V) :=
  (k, v) :: alistErase m k

@[simp]
theorem alistLookup_nil {K V : Type} [DecidableEq K] (k : K) :
    alistLookup ([] : List (K × V)) k = none := rfl

@[simp]
theorem alistLookup_cons {K V : Type} [DecidableEq K] (e : K × V) (rest : List (K × V))
    (k : K) :
    alistLookup (e :: rest) k = if e.1 = k then some e.2 else alistLookup rest k := rfl

@[simp]
theorem alistErase_nil {K V : Type} [DecidableEq K] (k : K) :
    alistErase ([] : List (K × V)) k = [] := rfl

@[simp]
theorem alistErase_cons {K V : Type} [DecidableEq K] (e : K × V) (rest : List (K × V))
    (k : K) :
    alistErase (e :: rest) k
      = if e.1 = k then alistErase rest k else e :: alistErase rest k := rfl

theorem alistLookup_erase_self {K V : Type} [DecidableEq K] (m : List (K × V)) (k : K) :
    alistLookup (alistErase m k) k = none := by
  induction m with
  | nil => rfl
  | cons e rest ih =>
    by_cases he : e.1 = k
    · rw [alistErase_cons, if_pos he]; exact ih
    · rw [alistErase_cons, if_neg he, alistLookup_cons, if_neg he]; exact ih

theorem alistLookup_erase_ne {K V : Type} [DecidableEq K] (m : List (K × V)) {k k' : K}
    (h : k' ≠ k) : alistLookup (alistErase m k) k' = alistLookup m k' := by
  induction m with
  | nil => rfl
  | cons e rest ih =>
    by_cases he : e.1 = k
    · rw [alistErase_cons, if_pos he, alistLookup_cons,
        if_neg (by rw [he]; exact fun hk => h hk.symm)]
      exact ih
    · rw [alistErase_cons, if_neg he, alistLookup_cons, alistLookup_cons]
      by_cases he' : e.1 = k'
      · rw [if_pos he', if_pos he']
      · rw [if_neg he', if_neg he']; exact ih

theorem alistLookup_insert_self {K V : Type} [DecidableEq K] (m : List (K × V)) (k : K)
    (v : V) : alistLookup (alistInsert m k v) k = some v := by
  unfold alistInsert
  rw [alistLookup_cons, if_pos rfl]

theorem alistLookup_insert_ne {K V : Type} [DecidableEq K] (m : List (K × V)) {k k' : K}
    (v : V) (h : k' ≠ k) : alistLookup (alistInsert m k v) k' = alistLookup m k' := by
  unfold alistInsert
  rw [alistLookup_cons, if_neg (fun hk => h hk.symm)]
  exact alistLookup_erase_ne m h

/-! ## `InstanceSet` (the Instance Batch, `src/renderer.rs` lines 527-630) -/

/-- `InstanceSet<T>` from `src/renderer.rs`: a fixed-capacity packed
buffer of per-instance data plus a handle-to-slot mapping.  `buffer`
models the GPU-resident buffer contents by slot: `write_index i d` is
`queue.write_buffer` at byte offset `i * size_of::<T>()`. -/
structure InstanceSet (T : Type) where
  buffer : Nat → Option T
  count : Nat
  capacity : Nat
  instance_map : List (Handle × Nat × T)

/-- `InstanceSet::new` (lines 540-571): empty set with the given capacity
and an uninitialized GPU buffer. -/
def InstanceSet.new (T : Type) (capacity : Nat) : InstanceSet T :=
  { buffer := fun _ => none, count := 0, capacity := capacity, instance_map := [] }

/-- `InstanceSet::write_index` (lines 615-621): one buffer write at the
slot's offset. -/
def InstanceSet.write_index {T : Type} (s : InstanceSet T) (i : Nat) (d : T) :
    InstanceSet T :=
  { s with buffer := fun j => if j = i then some d else s.buffer j }

/-- `InstanceSet::add` (lines 573-584).  The source increments `count`,
then hits `todo!("Resize Instance-Set Buffer")` when the new count exceeds
the capacity; the panic aborts the call, embedded as `Except.error` with
no poststate.  Otherwise the data is written at slot `next_index = count`
and the handle is mapped to that slot. -/
def InstanceSet.add {T : Type} (s : InstanceSet T) (key : Handle) (data : T) :
    Except String (InstanceSet T) :=
  let next_index := s.count
  let count' := s.count + 1
  if count' > s.capacity then
    Except.error "Resize Instance-Set Buffer"
  else
    let s1 := InstanceSet.write_index { s with count := count' } next_index data
    Except.ok { s1 with instance_map := alistInsert s1.instance_map key (next_index, data) }

/-- `InstanceSet::update` (lines 585-593): `instance_map.get_mut(&key).unwrap()`
panics on an unknown key (`Except.error`); otherwise the stored data is
replaced and one buffer write is issued at the recorded slot. -/
def InstanceSet.update {T : Type} (s : InstanceSet T) (key : Handle) (data : T) :
    Except String (InstanceSet T) :=
  match alistLookup s.instance_map key with
  | none => Except.error "InstanceSet.update: unwrap on missing key"
  | some entry =>
    let s1 := { s with instance_map := alistInsert s.instance_map key (entry.1, data) }
    Except.ok (s1.write_index entry.1 data)

/-- `InstanceSet::remove` (lines 594-613), embedded exactly as written:
`instance_map.remove(&key).unwrap()` panics on an unknown key (error);
then the source sets `last_index = self.count` (NOT `count - 1`) and looks
for a surviving entry recorded at that index to move into the freed slot,
writing it through to the buffer, before decrementing `count`. -/
def InstanceSet.remove {T : Type} (s : InstanceSet T) (key : Handle) :
    Except String (InstanceSet T) :=
  match alistLookup s.instance_map key with
  | none => Except.error "InstanceSet.remove: unwrap on missing key"
  | some removed_entry =>
    let m := alistErase s.instance_map key
    let last_index := s.count
    match m.find? (fun e => e.2.1 == last_index) with
    | some e =>
      let s1 := { s with instance_map := alistInsert m e.1 (removed_entry.1, e.2.2) }
      let s2 := s1.write_index removed_entry.1 e.2.2
      Except.ok { s2 with count := s2.count - 1 }
    | none =>
      Except.ok { s with instance_map := m, count := s.count - 1 }

/-- `InstanceSet::len` (lines 623-625). -/
def InstanceSet.len {T : Type} (s : InstanceSet T) : Nat := s.count

/-- `InstanceSet::is_empty` (lines 627-629). -/
def InstanceSet.is_empty {T : Type} (s : InstanceSet T) : Bool := s.count == 0

/-- The recorded slot index of every present handle, in map order. -/
def InstanceSet.slotIndices {T : Type} (s : InstanceSet T) : List Nat :=
  s.instance_map.map (fun e => e.2.1)

/-- All-distinct check on a list of slot indices. -/
def nodupIndices : List Nat → Bool
  | [] => true
  | x :: xs => (!(xs.contains x)) && nodupIndices xs

/-- The packed-slot invariant of the spec (sections 3, 8): `count` equals
the number of present handles, every recorded slot index is `< count`,
and the indices are pairwise distinct — together: the occupied slots are
exactly the contiguous range `[0, count)`. -/
def InstanceSet.slotInvariant {T : Type} (s : InstanceSet T) : Bool :=
  (s.count == s.instance_map.length) &&
  s.instance_map.all (fun e => decide (e.2.1 < s.count)) &&
  nodupIndices s.slotIndices

/-- A distinct model matrix per scenario instance (payload `n` in the
translation slot). -/
def scenarioMat (n : Nat) : Mat4 :=
  { scale := Vec3.one, rotation := Quat.identity, translation := ⟨⟨n⟩, ⟨0⟩, ⟨0⟩⟩ }

/-- The spec's Scenario A, run on the embedded code: a fresh Instance
Batch (capacity 1024 as in `SceneRenderData::create_instance`), add three
instances h1, h2, h3 with distinct matrices, then remove h2. -/
def scenarioSet : Except String (InstanceSet Mat4) :=
  ((InstanceSet.new Mat4 1024).add ⟨0, 1⟩ (scenarioMat 1)).bind
    (fun s => s.add ⟨1, 1⟩ (scenarioMat 2)) |>.bind
    (fun s => s.add ⟨2, 1⟩ (scenarioMat 3)) |>.bind
    (fun s => s.remove ⟨1, 1⟩)

/-- C1: the claimed packed-slot invariant (`count` = number of present
handles, every recorded index `< count` and distinct, occupied slots =
`[0, count)`) is NOT maintained by the code: after `add h1; add h2;
add h3; remove h2`, the surviving handle h3 still records slot 2 while
`count = 2` — slot 1 is a gap and slot 2 is outside `[0, count)`.  The
`remove` backfill compares against `self.count` instead of
`self.count - 1` (`src/renderer.rs` line 597), so the move never fires
here, contradicting the comment on line 599. -/
theorem instanceSet_slotInvariant_violated :
    scenarioSet.map InstanceSet.slotInvariant = Except.ok false ∧
    scenarioSet.map (fun s => (s.count, s.slotIndices)) = Except.ok (2, [2, 0]) :=
  ⟨rfl, rfl⟩

/-- C2: the spec's Scenario A outcome is NOT what the code produces.
After `add h1; add h2; add h3; remove h2`: h1 is still at slot 0, but h3
is still at slot 2 (the claim requires it moved into h2's former slot 1),
`count = 2`, and the buffer at slot 1 still holds h2's stale matrix — no
backfill write was issued (same off-by-one as C1: `last_index` is
`self.count`, which no live entry can match). -/
theorem instanceSet_remove_no_backfill :
    scenarioSet.map (fun s => alistLookup s.instance_map ⟨0, 1⟩)
        = Except.ok (some (0, scenarioMat 1)) ∧
    scenarioSet.map (fun s => alistLookup s.instance_map ⟨1, 1⟩) = Except.ok none ∧
    scenarioSet.map (fun s => alistLookup s.instance_map ⟨2, 1⟩)
        = Except.ok (some (2, scenarioMat 3)) ∧
    scenarioSet.map (fun s => s.count) = Except.ok 2 ∧
    scenarioSet.map (fun s => s.buffer 1) = Except.ok (some (scenarioMat 2)) :=
  ⟨rfl, rfl, rfl, rfl, rfl⟩

/-- C5: at capacity, `add` fails the call with the capacity error (the
source's `todo!` growth gap), leaving no mutated poststate observable;
below capacity, `add` succeeds, writes the data at slot = current count
(both in the map and in the GPU buffer), increments `count`, and disturbs
no other handle's mapping and no other buffer slot. -/
theorem InstanceSet.add_spec {T : Type} (s : InstanceSet T) (key : Handle) (data : T) :
    (s.capacity ≤ s.count → s.add key data = Except.error "Resize Instance-Set Buffer") ∧
    (s.count < s.capacity →
      ∃ s', s.add key data = Except.ok s' ∧
        s'.count = s.count + 1 ∧
        s'.capacity = s.capacity ∧
        alistLookup s'.instance_map key = some (s.count, data) ∧
        s'.buffer s.count = some data ∧
        (∀ k, k ≠ key → alistLookup s'.instance_map k = alistLookup s.instance_map k) ∧
        (∀ i, i ≠ s.count → s'.buffer i = s.buffer i)) := by
  constructor
  · intro hcap
    unfold add
    rw [if_pos (by omega)]
  · intro hcap
    have hadd : s.add key data = Except.ok
        { buffer := fun j => if j = s.count then some data else s.buffer j,
          count := s.count + 1, capacity := s.capacity,
          instance_map := alistInsert s.instance_map key (s.count, data) } := by
      unfold add write_index
      rw [if_neg (by omega)]
    refine ⟨_, hadd, rfl, rfl, alistLookup_insert_self _ _ _, ?_, ?_, ?_⟩
    · show (if s.count = s.count then some data else s.buffer s.count) = some data
      rw [if_pos rfl]
    · intro k hk
      exact alistLookup_insert_ne _ _ hk
    · intro i hi
      show (if i = s.count then some data else s.buffer i) = s.buffer i
      rw [if_neg hi]

/-- A full Instance Batch: capacity 1, one instance added. -/
def c5Full : InstanceSet Mat4 :=
  (((InstanceSet.new Mat4 1).add ⟨0, 1⟩ (scenarioMat 1)).toOption).getD
    (InstanceSet.new Mat4 0)

/-- Witness for C5: adding to a full batch (capacity 1, count 1) fails
with the capacity error; adding to a fresh batch below capacity succeeds
at slot 0. -/
theorem InstanceSet.add_spec_witness :
    (c5Full.capacity ≤ c5Full.count ∧
      c5Full.add ⟨1, 1⟩ (scenarioMat 2) = Except.error "Resize Instance-Set Buffer") ∧
    ((InstanceSet.new Mat4 1).count < (InstanceSet.new Mat4 1).capacity ∧
      ∃ s', (InstanceSet.new Mat4 1).add ⟨0, 1⟩ (scenarioMat 1) = Except.ok s' ∧
        s'.count = 1 ∧ alistLookup s'.instance_map ⟨0, 1⟩ = some (0, scenarioMat 1)) := by
  constructor
  · exact ⟨by decide, (InstanceSet.add_spec c5Full ⟨1, 1⟩ (scenarioMat 2)).1 (by decide)⟩
  · refine ⟨by decide, ?_⟩
    obtain ⟨s', h1, h2, _, h4, _⟩ :=
      (InstanceSet.add_spec (InstanceSet.new Mat4 1) ⟨0, 1⟩ (scenarioMat 1)).2 (by decide)
    exact ⟨s', h1, h2, h4⟩

/-! ## Physics (`src/physics.rs`)

`rapier3d` is an external engine; its body/collider arenas are generation
checked like `SlotTable`, and its solver is taken as a parameter where the
claims need stepping. -/

/-- `rapier3d::prelude::RigidBodyType` (external enum; only carried). -/
inductive RigidBodyType where
  | dynamic
  | fixed
  | kinematicPositionBased
  | kinematicVelocityBased
deriving DecidableEq, Repr

/-- `ColliderShape` from `src/physics.rs` lines 4-10. -/
inductive ColliderShape where
  | sphere (radius : F32)
  | box (half_extent : Vec3)
  | capsule (radius y : F32)
  | cylinder (radius y : F32)
  | mesh
deriving DecidableEq, Repr

/-- Modelled from the spec (section 4.4): a rapier rigid body reduced to
the observables the core reads/writes through the `PhysicsScene` API. -/
structure RigidBody where
  translation : Vec3
  rotation : Quat
  angvel : Vec3
  body_type : RigidBodyType
deriving DecidableEq, Repr

/-- Modelled from the spec (sections 3, 4.4): a rapier collider reduced to
its parent body, placement, shape and mass. -/
structure Collider where
  parent : Handle
  translation : Vec3
  rotation : Quat
  shape : ColliderShape
  mass : F32
deriving DecidableEq, Repr

/-- `get_mut` + assignment on an arena slot: replace the value behind a
live handle, leaving versions untouched. -/
def SlotTable.setValue {V : Type} (t : SlotTable V) (h : Handle) (v : V) : SlotTable V :=
  match t.get h with
  | some _ => { t with slots := t.slots.set h.idx (h.version, some v) }
  | none => t

/-- Map a function over every occupied slot. -/
def SlotTable.mapValues {V : Type} (t : SlotTable V) (f : V → V) : SlotTable V :=
  { slots := t.slots.map (fun s => (s.1, s.2.map f)), free_list := t.free_list }

/-- Remove every occupied slot whose value satisfies `p`, bumping each
freed slot's version and putting its index on the free list (rapier's
removal of all colliders attached to a removed body). -/
def SlotTable.removeBy {V : Type} (t : SlotTable V) (p : V → Bool) : SlotTable V :=
  { slots := t.slots.map (fun s =>
      match s with
      | (ver, some v) => if p v then (ver + 1, none) else (ver, some v)
      | s => s),
    free_list := (t.slots.enum.filterMap (fun s =>
      match s with
      | (i, (_, some v)) => if p v then some i else none
      | _ => none)) ++ t.free_list }

/-- `PhysicsScene` from `src/physics.rs` lines 26-39: body and collider
arenas, the gravity vector and the integration timestep (the remaining
pipeline fields are solver-internal state of the external engine). -/
structure PhysicsScene where
  rigid_body_set : SlotTable RigidBody
  collider_set : SlotTable Collider
  gravity : Vec3
  dt : F32

/-- `PhysicsScene::new` (lines 42-69): empty sets, gravity `(0,0,0)`. -/
def PhysicsScene.new : PhysicsScene :=
  { rigid_body_set := SlotTable.empty, collider_set := SlotTable.empty,
    gravity := Vec3.zero, dt := default }

/-- `PhysicsScene::step_physics` (lines 71-92): store `dt` into the
integration parameters, then run the external pipeline, which advances
every rigid body one timestep under the scene's gravity.  The solver's
per-body integration (`PhysicsPipeline::step`, external) is the parameter
`integrate`. -/
def PhysicsScene.step_physics (integrate : F32 → Vec3 → RigidBody → RigidBody)
    (s : PhysicsScene) (delta_time : F32) : PhysicsScene :=
  { s with
    dt := delta_time
    rigid_body_set := s.rigid_body_set.mapValues (integrate delta_time s.gravity) }

/-- `PhysicsScene::create_rigid_body` (lines 94-105). -/
def PhysicsScene.create_rigid_body (s : PhysicsScene) (translation : Vec3)
    (rotation : Quat) (body_type : RigidBodyType) : Handle × PhysicsScene :=
  let r := s.rigid_body_set.insert
    { translation := translation, rotation := rotation,
      angvel := Vec3.zero, body_type := body_type }
  (r.1, { s with rigid_body_set := r.2 })

/-- `PhysicsScene::remove_rigid_body` (lines 107-116): rapier's
`RigidBodySet::remove` with `remove_attached_colliders = true` removes the
body and every collider parented to it; with a stale handle it does
nothing. -/
def PhysicsScene.remove_rigid_body (s : PhysicsScene) (handle : Handle) : PhysicsScene :=
  match s.rigid_body_set.remove handle with
  | (none, _) => s
  | (some _, set) =>
    { s with
      rigid_body_set := set
      collider_set := s.collider_set.removeBy (fun c => c.parent == handle) }

/-- `PhysicsScene::get_rigid_body_transform` (lines 118-124):
`rigid_body_set.get(handle).unwrap()` panics on a stale handle. -/
def PhysicsScene.get_rigid_body_transform (s : PhysicsScene) (handle : Handle) :
    Except String (Vec3 × Quat) :=
  match s.rigid_body_set.get handle with
  | none => Except.error "PhysicsScene.get_rigid_body_transform: unwrap on missing body"
  | some rb => Except.ok (rb.translation, rb.rotation)

/-- `PhysicsScene::set_rigid_body_transform` (lines 126-137): written with
`if let Some(rigid_body) = ...get_mut(handle)`, so a stale handle is
silently ignored — the function always returns, never panics. -/
def PhysicsScene.set_rigid_body_transform (s : PhysicsScene) (handle : Handle)
    (translation : Vec3) (rotation : Quat) (_wake_up : Bool) : PhysicsScene :=
  match s.rigid_body_set.get handle with
  | some rb =>
    let rb' := { rb with translation := translation, rotation := rotation }
    { s with rigid_body_set := s.rigid_body_set.setValue handle rb' }
  | none => s

/-- `PhysicsScene::create_collider` (lines 139-155): insert with parent. -/
def PhysicsScene.create_collider (s : PhysicsScene) (parent_handle : Handle)
    (translation : Vec3) (rotation : Quat) (shape : ColliderShape) (mass : F32) :
    Handle × PhysicsScene :=
  let r := s.collider_set.insert
    { parent := parent_handle, translation := translation, rotation := rotation,
      shape := shape, mass := mass }
  (r.1, { s with collider_set := r.2 })

/-- `PhysicsScene::remove_collider` (lines 157-164). -/
def PhysicsScene.remove_collider (s : PhysicsScene) (handle : Handle) : PhysicsScene :=
  { s with collider_set := (s.collider_set.remove handle).2 }

/-- `PhysicsScene::get_collider_transform` (lines 166-172):
`collider_set.get(handle).unwrap()` panics on a stale handle. -/
def PhysicsScene.get_collider_transform (s : PhysicsScene) (handle : Handle) :
    Except String (Vec3 × Quat) :=
  match s.collider_set.get handle with
  | none => Except.error "PhysicsScene.get_collider_transform: unwrap on missing collider"
  | some c => Except.ok (c.translation, c.rotation)

/-- `PhysicsScene::set_collider_transform` (lines 174-184): `if let Some`,
so a stale handle is silently ignored. -/
def PhysicsScene.set_collider_transform (s : PhysicsScene) (handle : Handle)
    (translation : Vec3) (rotation : Quat) : PhysicsScene :=
  match s.collider_set.get handle with
  | some c =>
    let c' := { c with translation := translation, rotation := rotation }
    { s with collider_set := s.collider_set.setValue handle c' }
  | none => s

/-- `PhysicsScene::set_rigid_body_angular_velocity` (lines 186-193):
`get_mut(handle).unwrap()` panics on a stale handle. -/
def PhysicsScene.set_rigid_body_angular_velocity (s : PhysicsScene) (handle : Handle)
    (angular_velocity : Vec3) : Except String PhysicsScene :=
  match s.rigid_body_set.get handle with
  | none =>
    Except.error "PhysicsScene.set_rigid_body_angular_velocity: unwrap on missing body"
  | some rb =>
    let rb' := { rb with angvel := angular_velocity }
    Except.ok { s with rigid_body_set := s.rigid_body_set.setValue handle rb' }

/-! ## Render scene (`SceneRenderData`, `src/renderer.rs` lines 465-525) -/

/-- `InstanceType` from `src/renderer.rs` lines 459-463. -/
structure InstanceType where
  mesh : Handle
  material : Handle
deriving DecidableEq, Repr

/-- `SceneRenderData` from `src/renderer.rs` lines 465-472: a slot map of
instance handles to their (mesh, material) key, and a map from key to the
Instance Batch holding the instance data. -/
structure SceneRenderData where
  instance_map : SlotTable InstanceType
  instance_set_map : List (InstanceType × InstanceSet Mat4)

/-- `SceneRenderData::new` (lines 474-487). -/
def SceneRenderData.new : SceneRenderData :=
  { instance_map := SlotTable.empty, instance_set_map := [] }

/-- `SceneRenderData::create_instance` (lines 489-512): register the
handle under its (mesh, material) key, lazily create the key's batch
(capacity 1024), and add the model matrix to it. -/
def SceneRenderData.create_instance (s : SceneRenderData) (mesh material : Handle)
    (transform : Transform) : Except String (Handle × SceneRenderData) :=
  let instance_type : InstanceType := ⟨mesh, material⟩
  let r := s.instance_map.insert instance_type
  let set := match alistLookup s.instance_set_map instance_type with
    | some set => set
    | none => InstanceSet.new Mat4 1024
  match set.add r.1 transform.as_model_matrix with
  | Except.error e => Except.error e
  | Except.ok set' =>
    Except.ok (r.1,
      { instance_map := r.2,
        instance_set_map := alistInsert s.instance_set_map instance_type set' })

/-- `SceneRenderData::update_instance` (lines 514-518): two `unwrap`s
(handle to key, key to batch) then the batch update (a third `unwrap` on
the batch's own map). -/
def SceneRenderData.update_instance (s : SceneRenderData) (key : Handle)
    (transform : Transform) : Except String SceneRenderData :=
  match s.instance_map.get key with
  | none => Except.error "SceneRenderData.update_instance: unwrap on missing handle"
  | some instance_type =>
    match alistLookup s.instance_set_map instance_type with
    | none => Except.error "SceneRenderData.update_instance: unwrap on missing set"
    | some set =>
      match set.update key transform.as_model_matrix with
      | Except.error e => Except.error e
      | Except.ok set' =>
        Except.ok { s with
          instance_set_map := alistInsert s.instance_set_map instance_type set' }

/-- `SceneRenderData::remove_instance` (lines 520-524): same two
`unwrap`s, then the batch removal.  Note the source never erases `key`
from `instance_map` itself — only the batch entry goes away. -/
def SceneRenderData.remove_instance (s : SceneRenderData) (key : Handle) :
    Except String SceneRenderData :=
  match s.instance_map.get key with
  | none => Except.error "SceneRenderData.remove_instance: unwrap on missing handle"
  | some instance_type =>
    match alistLookup s.instance_set_map instance_type with
    | none => Except.error "SceneRenderData.remove_instance: unwrap on missing set"
    | some set =>
      match set.remove key with
      | Except.error e => Except.error e
      | Except.ok set' =>
        Except.ok { s with
          instance_set_map := alistInsert s.instance_set_map instance_type set' }
/-- Whether an instance handle still resolves to live instance data in
the render scene: its key is registered in `instance_map` and its batch
still holds an entry for it. -/
def SceneRenderData.batchContains (r : SceneRenderData) (h : Handle) : Bool :=
  match r.instance_map.get h with
  | some ity =>
    match alistLookup r.instance_set_map ity with
    | some set => (alistLookup set.instance_map h).isSome
    | none => false
  | none => false

/-- `true` exactly when the embedded call panics (`Except.error`). -/
def isPanic {A : Type} (x : Except String A) : Bool :=
  match x with
  | Except.error _ => true
  | Except.ok _ => false

/-- A scene with one dynamic body. -/
def c4Scene1 : Handle × PhysicsScene :=
  PhysicsScene.new.create_rigid_body Vec3.zero Quat.identity RigidBodyType.dynamic

/-- The body's handle. -/
def c4Body : Handle := c4Scene1.1

/-- The same scene with one collider parented to the body. -/
def c4Scene2 : Handle × PhysicsScene :=
  c4Scene1.2.create_collider c4Body Vec3.zero Quat.identity
    (ColliderShape.sphere ⟨0x3f800000⟩) ⟨0⟩

/-- The collider's handle. -/
def c4Collider : Handle := c4Scene2.1

/-- The scene after removing both, leaving `c4Body` and `c4Collider`
stale. -/
def c4Stale : PhysicsScene :=
  (c4Scene2.2.remove_collider c4Collider).remove_rigid_body c4Body

/-- C4 counterexample: with stale handles, `set_rigid_body_transform` and
`set_collider_transform` do NOT fail loudly — both are written with
`if let Some` (`src/physics.rs` lines 133, 180) and complete silently,
returning the scene unchanged. -/
theorem physics_setters_silent_on_stale :
    c4Stale.rigid_body_set.get c4Body = none ∧
    c4Stale.collider_set.get c4Collider = none ∧
    c4Stale.set_rigid_body_transform c4Body Vec3.one Quat.identity true = c4Stale ∧
    c4Stale.set_collider_transform c4Collider Vec3.one Quat.identity = c4Stale :=
  ⟨rfl, rfl, rfl, rfl⟩

/-- C4 amended: lookups of freed/reused handles through
`get_rigid_body_transform`, `get_collider_transform`,
`SceneRenderData::update_instance` and `remove_instance` fail immediately
and loudly (`unwrap` panic), but `set_rigid_body_transform` and
`set_collider_transform` silently ignore the stale handle, leaving the
scene unchanged. -/
theorem stale_handle_failure_modes (s : PhysicsScene) (r : SceneRenderData) (h : Handle)
    (v : Vec3) (q : Quat) (w : Bool) (t : Transform) :
    (s.rigid_body_set.get h = none →
      s.get_rigid_body_transform h
          = Except.error "PhysicsScene.get_rigid_body_transform: unwrap on missing body" ∧
      s.set_rigid_body_transform h v q w = s) ∧
    (s.collider_set.get h = none →
      s.get_collider_transform h
          = Except.error "PhysicsScene.get_collider_transform: unwrap on missing collider" ∧
      s.set_collider_transform h v q = s) ∧
    (r.batchContains h = false →
      isPanic (r.update_instance h t) = true ∧
      isPanic (r.remove_instance h) = true) := by
  refine ⟨fun hb => ⟨?_, ?_⟩, fun hc => ⟨?_, ?_⟩, fun hrb => ⟨?_, ?_⟩⟩
  · unfold PhysicsScene.get_rigid_body_transform
    rw [hb]
  · unfold PhysicsScene.set_rigid_body_transform
    rw [hb]
  · unfold PhysicsScene.get_collider_transform
    rw [hc]
  · unfold PhysicsScene.set_collider_transform
    rw [hc]
  · unfold SceneRenderData.batchContains at hrb
    unfold SceneRenderData.update_instance
    split
    · rfl
    · rename_i ity hg
      rw [hg] at hrb
      dsimp only at hrb
      split
      · rfl
      · rename_i set hset
        rw [hset] at hrb
        dsimp only at hrb
        have hnone : alistLookup set.instance_map h = none := by
          cases hl : alistLookup set.instance_map h with
          | none => rfl
          | some e => rw [hl] at hrb; exact absurd hrb (by simp)
        have hup : set.update h t.as_model_matrix
            = Except.error "InstanceSet.update: unwrap on missing key" := by
          unfold InstanceSet.update
          rw [hnone]
        rw [hup]
        rfl
  · unfold SceneRenderData.batchContains at hrb
    unfold SceneRenderData.remove_instance
    split
    · rfl
    · rename_i ity hg
      rw [hg] at hrb
      dsimp only at hrb
      split
      · rfl
      · rename_i set hset
        rw [hset] at hrb
        dsimp only at hrb
        have hnone : alistLookup set.instance_map h = none := by
          cases hl : alistLookup set.instance_map h with
          | none => rfl
          | some e => rw [hl] at hrb; exact absurd hrb (by simp)
        have hrm : set.remove h
            = Except.error "InstanceSet.remove: unwrap on missing key" := by
          unfold InstanceSet.remove
          rw [hnone]
        rw [hrm]
        rfl

/-- One instance created in a fresh render scene. -/
def c4Render1 : Except String (Handle × SceneRenderData) :=
  SceneRenderData.new.create_instance ⟨0, 1⟩ ⟨0, 1⟩ Transform.default

/-- That instance's handle. -/
def c4InstanceHandle : Handle :=
  ((c4Render1.toOption).getD (⟨0, 0⟩, SceneRenderData.new)).1

/-- The render scene after removing the instance again, leaving
`c4InstanceHandle` stale. -/
def c4RenderStale : SceneRenderData :=
  ((((c4Render1.toOption).getD (⟨0, 0⟩, SceneRenderData.new)).2.remove_instance
      c4InstanceHandle).toOption).getD SceneRenderData.new

/-- Witness for C4 (amended): concrete stale handles show the loud
getter/update failures and the silent setter no-ops. -/
theorem stale_handle_failure_modes_witness :
    (c4Stale.rigid_body_set.get c4Body = none ∧
      c4Stale.get_rigid_body_transform c4Body
          = Except.error "PhysicsScene.get_rigid_body_transform: unwrap on missing body" ∧
      c4Stale.set_rigid_body_transform c4Body Vec3.one Quat.identity true = c4Stale) ∧
    (c4Stale.collider_set.get c4Collider = none ∧
      c4Stale.get_collider_transform c4Collider
          = Except.error "PhysicsScene.get_collider_transform: unwrap on missing collider" ∧
      c4Stale.set_collider_transform c4Collider Vec3.one Quat.identity = c4Stale) ∧
    (c4RenderStale.batchContains c4InstanceHandle = false ∧
      isPanic (c4RenderStale.update_instance c4InstanceHandle Transform.default) = true ∧
      isPanic (c4RenderStale.remove_instance c4InstanceHandle) = true) := by
  have h1 := (stale_handle_failure_modes c4Stale c4RenderStale c4Body Vec3.one
    Quat.identity true Transform.default).1 rfl
  have h2 := (stale_handle_failure_modes c4Stale c4RenderStale c4Collider Vec3.one
    Quat.identity true Transform.default).2.1 rfl
  have h3 := (stale_handle_failure_modes c4Stale c4RenderStale c4InstanceHandle Vec3.one
    Quat.identity true Transform.default).2.2 rfl
  exact ⟨⟨rfl, h1⟩, ⟨rfl, h2⟩, ⟨rfl, h3⟩⟩

/-! ## World and entities (`src/world.rs`, `src/player.rs`) -/

/-- `slotmap` null key (`EntityId::default()`): version 0 never matches an
occupied slot, whose versions start at 1. -/
def Handle.null : Handle := ⟨0, 0⟩

/-- `Player` from `src/player.rs` lines 5-10. -/
structure PlayerData where
  id : Handle
  transform : Transform
  linear_input : Vec3
  angular_input : Vec3
deriving DecidableEq, Repr

/-- `DynamicEntity` from `src/world.rs` lines 101-110. -/
structure DynamicEntityData where
  id : Handle
  transform : Transform
  model : Option (Handle × Handle)
  collider : Option Unit
  model_instance : Option Handle
  rigid_body_instance : Option Handle
  collider_instance : Option Handle
deriving DecidableEq, Repr

/-- The closed set of `dyn Entity` implementors in the source
(`src/player.rs`, `src/world.rs`), as a tagged union. -/
inductive Entity where
  | player (p : PlayerData)
  | dynamic (d : DynamicEntityData)
deriving DecidableEq, Repr

/-- `WorldInfo` from `src/world.rs` lines 83-88. -/
structure WorldInfo where
  physics : PhysicsScene
  rendering : SceneRenderData
  player_camera : PerspectiveCamera

/-- `World` from `src/world.rs` lines 14-18. -/
structure World where
  world_info : WorldInfo
  entities : SlotTable Entity
  player_entity : Handle

/-- Modelled from the spec: the two external f32 numeric kernels of the
frame — rapier's per-body integration inside `PhysicsPipeline::step`
(spec section 4.4: "advances all bodies one fixed timestep") and the
player's glam-based camera motion (`Player::update`,
`src/player.rs` lines 32-48), both opaque arithmetic over the payload
embedding. -/
structure ExternalKernels where
  integrate : F32 → Vec3 → RigidBody → RigidBody
  playerMotion : F32 → PlayerData → PlayerData

/-- `Entity::set_id` dispatch (`src/world.rs` 131-133, `src/player.rs`
24-26). -/
def Entity.set_id (e : Entity) (id : Handle) : Entity :=
  match e with
  | .player p => .player { p with id := id }
  | .dynamic d => .dynamic { d with id := id }

/-- `Entity::add_to_world` dispatch: `Player` registers nothing
(`src/player.rs` line 28); `DynamicEntity` creates its render instance
when it has a model (`src/world.rs` lines 135-141). -/
def Entity.add_to_world (e : Entity) (w : WorldInfo) : Except String (Entity × WorldInfo) :=
  match e with
  | .player p => Except.ok (.player p, w)
  | .dynamic d =>
    match d.model with
    | some mm =>
      match w.rendering.create_instance mm.1 mm.2 d.transform with
      | Except.error err => Except.error err
      | Except.ok (h, r) =>
        Except.ok (.dynamic { d with model_instance := some h },
          { w with rendering := r })
    | none => Except.ok (.dynamic d, w)

/-- `Entity::remove_from_world` dispatch: `Player` releases nothing
(`src/player.rs` line 30); `DynamicEntity` (`src/world.rs` lines 144-156)
takes and removes its render instance, then its collider, then its rigid
body. -/
def Entity.remove_from_world (e : Entity) (w : WorldInfo) :
    Except String (Entity × WorldInfo) :=
  match e with
  | .player p => Except.ok (.player p, w)
  | .dynamic d =>
    let step1 : Except String (DynamicEntityData × WorldInfo) :=
      match d.model_instance with
      | some mi =>
        match w.rendering.remove_instance mi with
        | Except.error err => Except.error err
        | Except.ok r =>
          Except.ok ({ d with model_instance := none }, { w with rendering := r })
      | none => Except.ok (d, w)
    match step1 with
    | Except.error err => Except.error err
    | Except.ok (d1, w1) =>
      let s2 : DynamicEntityData × WorldInfo :=
        match d1.collider_instance with
        | some ch =>
          ({ d1 with collider_instance := none },
            { w1 with physics := w1.physics.remove_collider ch })
        | none => (d1, w1)
      let s3 : DynamicEntityData × WorldInfo :=
        match s2.1.rigid_body_instance with
        | some bh =>
          ({ s2.1 with rigid_body_instance := none },
            { s2.2 with physics := s2.2.physics.remove_rigid_body bh })
        | none => s2
      Except.ok (.dynamic s3.1, s3.2)

/-- `Entity::update` dispatch: `Player` integrates its camera motion
(`src/player.rs` lines 32-48, the external kernel); `DynamicEntity`
(`src/world.rs` lines 158-168) reads its rigid body's transform from the
physics world (`unwrap` on a stale handle) and pushes its transform into
its render instance. -/
def Entity.update (K : ExternalKernels) (e : Entity) (w : WorldInfo) (delta_time : F32) :
    Except String (Entity × WorldInfo) :=
  match e with
  | .player p => Except.ok (.player (K.playerMotion delta_time p), w)
  | .dynamic d =>
    let step1 : Except String DynamicEntityData :=
      match d.rigid_body_instance with
      | some rb =>
        match w.physics.get_rigid_body_transform rb with
        | Except.error err => Except.error err
        | Except.ok tr =>
          Except.ok { d with transform :=
            { d.transform with position := tr.1, rotation := tr.2 } }
      | none => Except.ok d
    match step1 with
    | Except.error err => Except.error err
    | Except.ok d1 =>
      match d1.model_instance with
      | some mi =>
        match w.rendering.update_instance mi d1.transform with
        | Except.error err => Except.error err
        | Except.ok r => Except.ok (.dynamic d1, { w with rendering := r })
      | none => Except.ok (.dynamic d1, w)

/-- `Entity::update_player_input` dispatch: stores the axes on `Player`
(`src/player.rs` lines 50-53); `todo!()` on `DynamicEntity`
(`src/world.rs` lines 170-172). -/
def Entity.update_player_input (e : Entity) (linear angular : Vec3) :
    Except String Entity :=
  match e with
  | .player p =>
    Except.ok (.player { p with linear_input := linear, angular_input := angular })
  | .dynamic _ =>
    Except.error "DynamicEntity.update_player_input: not yet implemented"

/-- `Entity::get_camera_transform` dispatch: `Some(transform)` for
`Player` (`src/player.rs` lines 54-56); `todo!()` for `DynamicEntity`
(`src/world.rs` lines 173-175). -/
def Entity.get_camera_transform (e : Entity) : Except String (Option Transform) :=
  match e with
  | .player p => Except.ok (some p.transform)
  | .dynamic _ =>
    Except.error "DynamicEntity.get_camera_transform: not yet implemented"

/-- `World::new` (`src/world.rs` lines 21-34): fresh physics scene and
render scene, camera `PerspectiveCamera::new(95.0, 0.1)`, empty entity
table, null player id. -/
def World.new : World where
  world_info :=
    { physics := PhysicsScene.new
      rendering := SceneRenderData.new
      player_camera := PerspectiveCamera.new ⟨0x42be0000⟩ ⟨0x3dcccccd⟩ }
  entities := SlotTable.empty
  player_entity := Handle.null

/-- `World::add_entity` (`src/world.rs` lines 44-50): insert, assign the
new id, then run the entity's `add_to_world` hook. -/
def World.add_entity (w : World) (entity : Entity) : Except String (Handle × World) :=
  let r := w.entities.insert entity
  let e1 := entity.set_id r.1
  match e1.add_to_world w.world_info with
  | Except.error err => Except.error err
  | Except.ok (e2, wi) =>
    Except.ok (r.1, { w with entities := r.2.setValue r.1 e2, world_info := wi })

/-- `World::remove_entity` (`src/world.rs` lines 52-60): remove from the
table, run `remove_from_world` when the entity existed, then clear the
player id if it pointed at the removed entity. -/
def World.remove_entity (w : World) (entity_id : Handle) : Except String World :=
  let r := w.entities.remove entity_id
  match r.1 with
  | some e =>
    match e.remove_from_world w.world_info with
    | Except.error err => Except.error err
    | Except.ok ew =>
      let w1 : World := { w with entities := r.2, world_info := ew.2 }
      Except.ok (if w1.player_entity = entity_id
        then { w1 with player_entity := Handle.null } else w1)
  | none =>
    let w1 : World := { w with entities := r.2 }
    Except.ok (if w1.player_entity = entity_id
      then { w1 with player_entity := Handle.null } else w1)

/-- `World::set_player` (`src/world.rs` lines 62-64). -/
def World.set_player (w : World) (player_id : Handle) : World :=
  { w with player_entity := player_id }

/-- `World::get_player_camera` (`src/world.rs` lines 72-80): resolve the
player entity, ask it for a camera transform, fall back to
`Transform::default()` when the entity or its transform is absent. -/
def World.get_player_camera (w : World) : Except String (PerspectiveCamera × Transform) :=
  match w.entities.get w.player_entity with
  | none => Except.ok (w.world_info.player_camera, Transform.default)
  | some e =>
    match e.get_camera_transform with
    | Except.error err => Except.error err
    | Except.ok t? => Except.ok (w.world_info.player_camera, t?.getD Transform.default)

/-- One event per engine call inside `World::update`, in call order. -/
inductive FrameEvent where
  | stepPhysics
  | entityUpdate (id : Handle)
deriving DecidableEq, Repr

/-- The entity-update loop of `World::update` (`src/world.rs` lines
39-41): run each live entity's `update` hook in table iteration order,
appending one trace event per hook. -/
def World.runUpdates (K : ExternalKernels) (dt : F32) :
    List (Handle × Entity) → World → List FrameEvent →
    Except String (World × List FrameEvent)
  | [], w, tr => Except.ok (w, tr)
  | (id, e) :: rest, w, tr =>
    match Entity.update K e w.world_info dt with
    | Except.error err => Except.error err
    | Except.ok ew =>
      World.runUpdates K dt rest
        { w with world_info := ew.2, entities := w.entities.setValue id ew.1 }
        (tr ++ [FrameEvent.entityUpdate id])

/-- `World::update` (`src/world.rs` lines 36-42): step the physics scene
first, then run every live entity's update hook. -/
def World.update (K : ExternalKernels) (w : World) (delta_time : F32) :
    Except String (World × List FrameEvent) :=
  let wi := { w.world_info with
    physics := PhysicsScene.step_physics K.integrate w.world_info.physics delta_time }
  World.runUpdates K delta_time w.entities.liveEntries
    { w with world_info := wi } [FrameEvent.stepPhysics]

/-- The update loop only ever appends entity-update events to the trace:
whatever it returns extends the incoming trace with hook events only. -/
theorem World.runUpdates_trace (K : ExternalKernels) (dt : F32)
    (es : List (Handle × Entity)) (w : World) (tr0 : List FrameEvent)
    (w' : World) (tr : List FrameEvent)
    (h : World.runUpdates K dt es w tr0 = Except.ok (w', tr)) :
    ∃ suffix, tr = tr0 ++ suffix ∧
      ∀ ev ∈ suffix, ∃ id, ev = FrameEvent.entityUpdate id := by
  induction es generalizing w tr0 with
  | nil =>
    unfold World.runUpdates at h
    obtain ⟨rfl, rfl⟩ : w = w' ∧ tr0 = tr := by
      constructor <;> (cases h; rfl)
    exact ⟨[], by simp, by simp⟩
  | cons e rest ih =>
    unfold World.runUpdates at h
    cases hu : Entity.update K e.2 w.world_info dt with
    | error err => rw [hu] at h; exact absurd h (by simp)
    | ok ew =>
      rw [hu] at h
      obtain ⟨suffix, hsuf, hall⟩ := ih _ _ h
      refine ⟨FrameEvent.entityUpdate e.1 :: suffix, ?_, ?_⟩
      · rw [hsuf]; simp
      · intro ev hev
        cases hev with
        | head => exact ⟨e.1, rfl⟩
        | tail _ hmem => exact hall ev hmem

/-- C3: within one `World::update(dt)` call the physics step
(`PhysicsScene::step_physics`) runs exactly once, and it is the first
event of the frame — strictly before every entity `update` hook — so a
rigid-body transform read inside a hook reflects that frame's step. -/
theorem world_update_step_order (K : ExternalKernels) (w : World) (dt : F32)
    (w' : World) (tr : List FrameEvent)
    (hu : World.update K w dt = Except.ok (w', tr)) :
    tr.count FrameEvent.stepPhysics = 1 ∧
    tr[0]? = some FrameEvent.stepPhysics ∧
    (∀ i id, tr[i]? = some (FrameEvent.entityUpdate id) → 0 < i) := by
  unfold World.update at hu
  obtain ⟨suffix, hsuf, hall⟩ := World.runUpdates_trace _ _ _ _ _ _ _ hu
  subst hsuf
  have hnotin : FrameEvent.stepPhysics ∉ suffix := by
    intro hmem
    obtain ⟨id, hid⟩ := hall _ hmem
    exact absurd hid (by simp)
  refine ⟨?_, by simp, ?_⟩
  · have : suffix.count FrameEvent.stepPhysics = 0 := List.count_eq_zero.mpr hnotin
    simp [List.count_cons, this]
  · intro i id hi
    cases i with
    | zero => exact absurd hi (by simp)
    | succ n => exact Nat.succ_pos n

/-- Identity external kernels for concrete runs. -/
def c3Kernels : ExternalKernels where
  integrate := fun _ _ rb => rb
  playerMotion := fun _ p => p

/-- A world holding one player entity. -/
def c3World : World :=
  ((World.new.add_entity (Entity.player
    { id := Handle.null, transform := Transform.default,
      linear_input := Vec3.zero, angular_input := Vec3.zero })).toOption.getD
    (Handle.null, World.new)).2

/-- The world produced by one frame of `c3World`. -/
def c3ResultWorld : World :=
  ((World.update c3Kernels c3World ⟨0⟩).toOption.getD (World.new, [])).1

/-- The trace produced by one frame of `c3World`. -/
def c3ResultTrace : List FrameEvent :=
  ((World.update c3Kernels c3World ⟨0⟩).toOption.getD (World.new, [])).2

/-- Witness for C3: one frame over a world with one player entity yields
the trace `[stepPhysics, entityUpdate]` — one step, first. -/
theorem world_update_step_order_witness :
    World.update c3Kernels c3World ⟨0⟩ = Except.ok (c3ResultWorld, c3ResultTrace) ∧
    (c3ResultTrace.count FrameEvent.stepPhysics = 1 ∧
      c3ResultTrace[0]? = some FrameEvent.stepPhysics ∧
      (∀ i id, c3ResultTrace[i]? = some (FrameEvent.entityUpdate id) → 0 < i)) :=
  ⟨rfl, world_update_step_order c3Kernels c3World ⟨0⟩ c3ResultWorld c3ResultTrace rfl⟩

/-- A world whose assigned player entity is a `DynamicEntity`. -/
def c9DynWorld : World :=
  match World.new.add_entity (Entity.dynamic
    { id := Handle.null, transform := Transform.default, model := none,
      collider := none, model_instance := none, rigid_body_instance := none,
      collider_instance := none }) with
  | Except.ok r => r.2.set_player r.1
  | Except.error _ => World.new

/-- C9 counterexample: `World::get_player_camera` is NOT total — when the
assigned player entity is a `DynamicEntity`, its `get_camera_transform`
hook is `todo!()` (`src/world.rs` lines 173-175) and the call panics
instead of returning a camera/transform pair. -/
theorem get_player_camera_panics_on_dynamic_player :
    c9DynWorld.get_player_camera
      = Except.error "DynamicEntity.get_camera_transform: not yet implemented" := rfl

/-- C9 amended: `get_player_camera` returns the player camera paired with
a transform — falling back to the default transform (position zero,
identity rotation, unit scale) — whenever no player entity is assigned or
the assigned entity was removed, and returns the player's own transform
when the player resolves to a `Player` entity; only a player entity whose
camera hook is unimplemented (`DynamicEntity`'s `todo!`) escapes by
panic. -/
theorem get_player_camera_cases (w : World) :
    (w.entities.get w.player_entity = none →
      w.get_player_camera = Except.ok (w.world_info.player_camera, Transform.default)) ∧
    (∀ p, w.entities.get w.player_entity = some (Entity.player p) →
      w.get_player_camera = Except.ok (w.world_info.player_camera, p.transform)) := by
  constructor
  · intro hnone
    unfold World.get_player_camera
    rw [hnone]
  · intro p hp
    unfold World.get_player_camera
    rw [hp]
    rfl

/-- The stored player data of `c9PlayerWorld` (id assigned by
`add_entity`). -/
def c9PlayerData : PlayerData :=
  { id := ⟨0, 1⟩, transform := Transform.default,
    linear_input := Vec3.zero, angular_input := Vec3.zero }

/-- A world with a `Player` entity assigned as the player. -/
def c9PlayerWorld : World :=
  match World.new.add_entity (Entity.player
    { id := Handle.null, transform := Transform.default,
      linear_input := Vec3.zero, angular_input := Vec3.zero }) with
  | Except.ok r => r.2.set_player r.1
  | Except.error _ => World.new

/-- Witness for C9 (amended): a fresh world (null player id) falls back
to the default transform; a world with a `Player` assigned returns that
player's transform. -/
theorem get_player_camera_cases_witness :
    (World.new.entities.get World.new.player_entity = none ∧
      World.new.get_player_camera
        = Except.ok (World.new.world_info.player_camera, Transform.default)) ∧
    (c9PlayerWorld.entities.get c9PlayerWorld.player_entity
        = some (Entity.player c9PlayerData) ∧
      c9PlayerWorld.get_player_camera
        = Except.ok (c9PlayerWorld.world_info.player_camera, c9PlayerData.transform)) :=
  ⟨⟨rfl, (get_player_camera_cases World.new).1 rfl⟩,
   ⟨rfl, (get_player_camera_cases c9PlayerWorld).2 c9PlayerData rfl⟩⟩

namespace SlotTable

/-- Removing a handle leaves that handle unresolvable. -/
theorem get_remove_self {V : Type} (t : SlotTable V) (h : Handle) :
    (t.remove h).2.get h = none := by
  unfold remove
  cases hg : t.get h with
  | none => exact hg
  | some v =>
    have hlt : h.idx < t.slots.length := idx_lt_of_get hg
    unfold get
    rw [List.getElem?_set_eq_of_lt _ hlt]

/-- Removing one handle does not change what any other handle resolves
to. -/
theorem get_remove_ne {V : Type} (t : SlotTable V) {h h' : Handle} (hne : h' ≠ h) :
    (t.remove h).2.get h' = t.get h' := by
  unfold remove
  cases hg : t.get h with
  | none => rfl
  | some v =>
    by_cases hidx : h'.idx = h.idx
    · have hver : t.versionAt h.idx = some h.version := versionAt_of_get hg
      have hvne : h'.version ≠ h.version := by
        intro hv
        exact hne (by cases h'; cases h; simp_all)
      have hlt : h.idx < t.slots.length := idx_lt_of_get hg
      unfold get
      rw [hidx, List.getElem?_set_eq_of_lt _ hlt]
      unfold get at hg
      unfold versionAt at hver
      cases hs : t.slots[h.idx]? with
      | none => rw [hs] at hg
      | some s =>
        obtain ⟨ver, val⟩ := s
        have hv : ver = h.version := by rw [hs] at hver; simpa using hver
        cases val with
        | none => rfl
        | some w =>
          show (none : Option V) = if ver = h'.version then some w else none
          rw [if_neg (fun he => hvne (by rw [← he]; exact hv))]
    · unfold get
      rw [List.getElem?_set_ne (fun he => hidx he.symm)]

/-- What a handle resolves to after a predicate sweep: removed when its
value matched, unchanged otherwise. -/
theorem get_removeBy {V : Type} (t : SlotTable V) (p : V → Bool) (h : Handle) :
    (t.removeBy p).get h
      = match t.get h with
        | some v => if p v then none else some v
        | none => none := by
  unfold removeBy get
  rw [List.getElem?_map]
  cases hs : t.slots[h.idx]? with
  | none => rfl
  | some s =>
    obtain ⟨ver, val⟩ := s
    cases val with
    | none => rfl
    | some v =>
      by_cases hver : ver = h.version
      · subst hver
        by_cases hp : p v
        · simp [hp]
        · simp [hp]
      · by_cases hp : p v
        · simp [hp, hver]
        · simp [hp, hver]

end SlotTable

/-- Members of an erased association list were members before. -/
theorem mem_of_mem_alistErase {K V : Type} [DecidableEq K] {m : List (K × V)} {k : K}
    {e : K × V} (h : e ∈ alistErase m k) : e ∈ m := by
  induction m with
  | nil => exact absurd h (by simp)
  | cons e0 rest ih =>
    rw [alistErase_cons] at h
    by_cases he : e0.1 = k
    · rw [if_pos he] at h
      exact List.mem_cons_of_mem e0 (ih h)
    · rw [if_neg he] at h
      cases h with
      | head => exact List.mem_cons_self _ _
      | tail _ hm => exact List.mem_cons_of_mem _ (ih hm)

/-- Members of an erased association list do not carry the erased key. -/
theorem ne_of_mem_alistErase {K V : Type} [DecidableEq K] {m : List (K × V)} {k : K}
    {e : K × V} (h : e ∈ alistErase m k) : e.1 ≠ k := by
  induction m with
  | nil => exact absurd h (by simp)
  | cons e0 rest ih =>
    rw [alistErase_cons] at h
    by_cases he : e0.1 = k
    · rw [if_pos he] at h
      exact ih h
    · rw [if_neg he] at h
      cases h with
      | head => exact he
      | tail _ hm => exact ih hm

/-- With pairwise-distinct keys, membership determines the lookup. -/
theorem alistLookup_of_mem_nodup {K V : Type} [DecidableEq K] {m : List (K × V)}
    (hnodup : (m.map Prod.fst).Nodup) {e : K × V} (hm : e ∈ m) :
    alistLookup m e.1 = some e.2 := by
  induction m with
  | nil => exact absurd hm (by simp)
  | cons e0 rest ih =>
    rw [List.map_cons, List.nodup_cons] at hnodup
    rw [alistLookup_cons]
    cases hm with
    | head => rw [if_pos rfl]
    | tail _ hmem =>
      by_cases he : e0.1 = e.1
      · exact absurd (he ▸ List.mem_map_of_mem Prod.fst hmem) hnodup.1
      · rw [if_neg he]
        exact ih hnodup.2 hmem

/-- Removing a present key from an Instance Batch succeeds, drops that
key, and preserves every other key's stored data (the buggy backfill may
relocate one entry's slot index, but never changes anyone's data). -/
theorem InstanceSet.remove_ok {T : Type} (s : InstanceSet T) (key : Handle)
    (entry : Nat × T) (hin : alistLookup s.instance_map key = some entry)
    (hnodup : (s.instance_map.map Prod.fst).Nodup) :
    ∃ s', s.remove key = Except.ok s' ∧
      alistLookup s'.instance_map key = none ∧
      (∀ k', k' ≠ key →
        (alistLookup s'.instance_map k').map (fun e => e.2)
          = (alistLookup s.instance_map k').map (fun e => e.2)) := by
  unfold remove
  rw [hin]
  dsimp only
  cases hf : (alistErase s.instance_map key).find? (fun e => e.2.1 == s.count) with
  | none =>
    refine ⟨_, rfl, ?_, ?_⟩
    · exact alistLookup_erase_self _ _
    · intro k' hk'
      show Option.map (fun e => e.2) (alistLookup (alistErase s.instance_map key) k')
          = Option.map (fun e => e.2) (alistLookup s.instance_map k')
      rw [alistLookup_erase_ne _ hk']
  | some e =>
    have hmem : e ∈ alistErase s.instance_map key := List.mem_of_find?_eq_some hf
    have hnekey : e.1 ≠ key := ne_of_mem_alistErase hmem
    have hmem0 : e ∈ s.instance_map := mem_of_mem_alistErase hmem
    refine ⟨_, rfl, ?_, ?_⟩
    · show alistLookup
          (alistInsert (alistErase s.instance_map key) e.1 (entry.1, e.2.2)) key = none
      rw [alistLookup_insert_ne _ _ (fun hkey => hnekey hkey.symm)]
      exact alistLookup_erase_self _ _
    · intro k' hk'
      show Option.map (fun e => e.2)
          (alistLookup (alistInsert (alistErase s.instance_map key) e.1 (entry.1, e.2.2)) k')
          = Option.map (fun e => e.2) (alistLookup s.instance_map k')
      by_cases hke : k' = e.1
      · subst hke
        rw [alistLookup_insert_self]
        rw [alistLookup_of_mem_nodup hnodup hmem0]
        rfl
      · rw [alistLookup_insert_ne _ _ hke, alistLookup_erase_ne _ hk']

/-- The model matrix an instance handle currently resolves to, if any. -/
def SceneRenderData.instanceData (r : SceneRenderData) (h : Handle) : Option Mat4 :=
  match r.instance_map.get h with
  | some ity =>
    match alistLookup r.instance_set_map ity with
    | some set => (alistLookup set.instance_map h).map (fun e => e.2)
    | none => none
  | none => none

/-- Removing a resolvable instance succeeds, stops the handle from
resolving to batch data, and leaves every other handle's instance data
unchanged. -/
theorem SceneRenderData.remove_instance_ok (r : SceneRenderData) (ih : Handle)
    (ity : InstanceType) (set : InstanceSet Mat4) (entry : Nat × Mat4)
    (hip : r.instance_map.get ih = some ity)
    (hsm : alistLookup r.instance_set_map ity = some set)
    (hin : alistLookup set.instance_map ih = some entry)
    (hnodup : (set.instance_map.map Prod.fst).Nodup) :
    ∃ r', r.remove_instance ih = Except.ok r' ∧
      r'.instance_map = r.instance_map ∧
      r'.batchContains ih = false ∧
      (∀ h', h' ≠ ih → r'.instanceData h' = r.instanceData h') := by
  obtain ⟨set', hrm, hkey, hpres⟩ := InstanceSet.remove_ok set ih entry hin hnodup
  unfold remove_instance
  rw [hip]
  dsimp only
  rw [hsm]
  dsimp only
  rw [hrm]
  refine ⟨_, rfl, rfl, ?_, ?_⟩
  · simp only [SceneRenderData.batchContains]
    rw [hip]
    dsimp only
    rw [alistLookup_insert_self]
    dsimp only
    rw [hkey]
    rfl
  · intro h' hne
    simp only [SceneRenderData.instanceData]
    cases hg : r.instance_map.get h' with
    | none => rfl
    | some ity' =>
      dsimp only
      by_cases hity : ity' = ity
      · subst hity
        rw [alistLookup_insert_self, hsm]
        exact hpres h' hne
      · rw [alistLookup_insert_ne _ _ hity]

/-- `remove_rigid_body` always leaves its target unresolvable. -/
theorem PhysicsScene.remove_rigid_body_get_self (s : PhysicsScene) (bh : Handle) :
    (s.remove_rigid_body bh).rigid_body_set.get bh = none := by
  unfold remove_rigid_body
  cases hr : s.rigid_body_set.remove bh with
  | mk fst snd =>
    cases fst with
    | none =>
      unfold SlotTable.remove at hr
      cases hg : s.rigid_body_set.get bh with
      | none => rfl
      | some v => rw [hg] at hr; exact absurd hr (by simp)
    | some v =>
      have hsnd : snd = (s.rigid_body_set.remove bh).2 := by rw [hr]
      show snd.get bh = none
      rw [hsnd]
      exact SlotTable.get_remove_self _ _

/-- `remove_rigid_body` leaves every other body handle resolving as
before. -/
theorem PhysicsScene.remove_rigid_body_get_ne (s : PhysicsScene) {bh b' : Handle}
    (hne : b' ≠ bh) :
    (s.remove_rigid_body bh).rigid_body_set.get b' = s.rigid_body_set.get b' := by
  unfold remove_rigid_body
  cases hr : s.rigid_body_set.remove bh with
  | mk fst snd =>
    cases fst with
    | none => rfl
    | some v =>
      have hsnd : snd = (s.rigid_body_set.remove bh).2 := by rw [hr]
      show snd.get b' = s.rigid_body_set.get b'
      rw [hsnd]
      exact SlotTable.get_remove_ne _ hne

/-- An unresolvable collider handle stays unresolvable through
`remove_rigid_body` (which may sweep attached colliders). -/
theorem PhysicsScene.remove_rigid_body_collider_none (s : PhysicsScene) (bh ch : Handle)
    (h : s.collider_set.get ch = none) :
    (s.remove_rigid_body bh).collider_set.get ch = none := by
  unfold remove_rigid_body
  cases hr : s.rigid_body_set.remove bh with
  | mk fst snd =>
    cases fst with
    | none => exact h
    | some v =>
      show (s.collider_set.removeBy (fun c => c.parent == bh)).get ch = none
      rw [SlotTable.get_removeBy, h]

/-- A collider parented to a different body survives `remove_rigid_body`
unchanged. -/
theorem PhysicsScene.remove_rigid_body_collider_ne (s : PhysicsScene) {bh c' : Handle}
    {v : Collider} (hv : s.collider_set.get c' = some v) (hpar : v.parent ≠ bh) :
    (s.remove_rigid_body bh).collider_set.get c' = some v := by
  unfold remove_rigid_body
  cases hr : s.rigid_body_set.remove bh with
  | mk fst snd =>
    cases fst with
    | none => exact hv
    | some w =>
      show (s.collider_set.removeBy (fun c => c.parent == bh)).get c' = some v
      rw [SlotTable.get_removeBy, hv]
      simp [beq_eq_false_iff_ne.mpr hpar]

/-- C6: removing a live entity that owns a render instance, a collider
and a rigid body releases all three — afterwards the entity is gone from
the table, its instance no longer resolves in the Render Scene, its
collider and body no longer resolve in the Physics World — while every
other entity, every other instance's data, every other body, and every
collider parented to another body are unchanged. -/
theorem world_remove_entity_releases (w : World) (eid : Handle) (d : DynamicEntityData)
    (ih ch bh : Handle) (ity : InstanceType) (set : InstanceSet Mat4)
    (entry : Nat × Mat4)
    (hent : w.entities.get eid = some (.dynamic d))
    (hmi : d.model_instance = some ih)
    (hci : d.collider_instance = some ch)
    (hbi : d.rigid_body_instance = some bh)
    (hip : w.world_info.rendering.instance_map.get ih = some ity)
    (hsm : alistLookup w.world_info.rendering.instance_set_map ity = some set)
    (hin : alistLookup set.instance_map ih = some entry)
    (hnodup : (set.instance_map.map Prod.fst).Nodup) :
    ∃ w', w.remove_entity eid = Except.ok w' ∧
      w'.entities.get eid = none ∧
      w'.world_info.rendering.batchContains ih = false ∧
      w'.world_info.physics.collider_set.get ch = none ∧
      w'.world_info.physics.rigid_body_set.get bh = none ∧
      (∀ id', id' ≠ eid → w'.entities.get id' = w.entities.get id') ∧
      (∀ h', h' ≠ ih → w'.world_info.rendering.instanceData h'
          = w.world_info.rendering.instanceData h') ∧
      (∀ b', b' ≠ bh → w'.world_info.physics.rigid_body_set.get b'
          = w.world_info.physics.rigid_body_set.get b') ∧
      (∀ c' v, c' ≠ ch → w.world_info.physics.collider_set.get c' = some v →
        v.parent ≠ bh → w'.world_info.physics.collider_set.get c' = some v) := by
  obtain ⟨r', hrm, hmap, hbc, hpres⟩ :=
    SceneRenderData.remove_instance_ok w.world_info.rendering ih ity set entry
      hip hsm hin hnodup
  have hrfw : Entity.remove_from_world (Entity.dynamic d) w.world_info = Except.ok
      (Entity.dynamic
        { d with
          model_instance := none
          collider_instance := none
          rigid_body_instance := none },
        { w.world_info with
          rendering := r'
          physics := (w.world_info.physics.remove_collider ch).remove_rigid_body bh }) := by
    unfold Entity.remove_from_world
    dsimp only
    rw [hmi]
    dsimp only
    rw [hrm]
    dsimp only
    rw [hci]
    dsimp only
    rw [hbi]
  have hfst : (w.entities.remove eid).1 = some (Entity.dynamic d) := by
    unfold SlotTable.remove
    rw [hent]
  have hEa : (w.entities.remove eid).2.get eid = none := SlotTable.get_remove_self _ _
  have hEe : ∀ id', id' ≠ eid → (w.entities.remove eid).2.get id' = w.entities.get id' :=
    fun _ hne => SlotTable.get_remove_ne _ hne
  have hPc : ((w.world_info.physics.remove_collider ch).remove_rigid_body
      bh).collider_set.get ch = none :=
    PhysicsScene.remove_rigid_body_collider_none _ _ _ (SlotTable.get_remove_self _ _)
  have hPb : ((w.world_info.physics.remove_collider ch).remove_rigid_body
      bh).rigid_body_set.get bh = none :=
    PhysicsScene.remove_rigid_body_get_self _ _
  have hPbne : ∀ b', b' ≠ bh →
      ((w.world_info.physics.remove_collider ch).remove_rigid_body
        bh).rigid_body_set.get b' = w.world_info.physics.rigid_body_set.get b' :=
    fun b' hne => PhysicsScene.remove_rigid_body_get_ne _ hne
  have hPcne : ∀ c' v, c' ≠ ch → w.world_info.physics.collider_set.get c' = some v →
      v.parent ≠ bh →
      ((w.world_info.physics.remove_collider ch).remove_rigid_body
        bh).collider_set.get c' = some v :=
    fun c' v hne hv hpar =>
      PhysicsScene.remove_rigid_body_collider_ne _
        ((SlotTable.get_remove_ne _ hne).trans hv) hpar
  unfold World.remove_entity
  dsimp only
  rw [hfst]
  dsimp only
  rw [hrfw]
  dsimp only
  by_cases hpe : w.player_entity = eid
  · rw [if_pos hpe]
    refine ⟨_, rfl, hEa, hbc, hPc, hPb, hEe, hpres, hPbne, hPcne⟩
  · rw [if_neg hpe]
    refine ⟨_, rfl, hEa, hbc, hPc, hPb, hEe, hpres, hPbne, hPcne⟩

/-- A physics scene with one body. -/
def c6Body : Handle × PhysicsScene :=
  PhysicsScene.new.create_rigid_body Vec3.zero Quat.identity RigidBodyType.dynamic

/-- The same scene with one collider parented to the body. -/
def c6Coll : Handle × PhysicsScene :=
  c6Body.2.create_collider c6Body.1 Vec3.zero Quat.identity (ColliderShape.sphere ⟨0⟩) ⟨0⟩

/-- A render scene with one instance. -/
def c6Render : Handle × SceneRenderData :=
  ((SceneRenderData.new.create_instance ⟨0, 1⟩ ⟨1, 1⟩ Transform.default).toOption).getD
    (Handle.null, SceneRenderData.new)

/-- The batch holding that instance. -/
def c6Set : InstanceSet Mat4 :=
  (alistLookup c6Render.2.instance_set_map ⟨⟨0, 1⟩, ⟨1, 1⟩⟩).getD (InstanceSet.new Mat4 0)

/-- An entity owning the instance, the collider and the body. -/
def c6Entity : DynamicEntityData :=
  { id := ⟨0, 1⟩, transform := Transform.default, model := some (⟨0, 1⟩, ⟨1, 1⟩),
    collider := some (), model_instance := some c6Render.1,
    rigid_body_instance := some c6Body.1, collider_instance := some c6Coll.1 }

/-- A world holding that entity together with its resources. -/
def c6World : World :=
  { world_info :=
      { physics := c6Coll.2
        rendering := c6Render.2
        player_camera := PerspectiveCamera.new ⟨0x42be0000⟩ ⟨0x3dcccccd⟩ }
    entities := (SlotTable.empty.insert (Entity.dynamic c6Entity)).2
    player_entity := Handle.null }

/-- Witness for C6: removing the one entity of `c6World` releases its
instance, collider and body. -/
theorem world_remove_entity_releases_witness :
    (c6World.entities.get ⟨0, 1⟩ = some (Entity.dynamic c6Entity) ∧
      c6Entity.model_instance = some c6Render.1 ∧
      c6Entity.collider_instance = some c6Coll.1 ∧
      c6Entity.rigid_body_instance = some c6Body.1 ∧
      c6World.world_info.rendering.instance_map.get c6Render.1 = some ⟨⟨0, 1⟩, ⟨1, 1⟩⟩ ∧
      alistLookup c6World.world_info.rendering.instance_set_map ⟨⟨0, 1⟩, ⟨1, 1⟩⟩
        = some c6Set ∧
      alistLookup c6Set.instance_map c6Render.1
        = some (0, Transform.default.as_model_matrix) ∧
      (c6Set.instance_map.map Prod.fst).Nodup) ∧
    (∃ w', c6World.remove_entity ⟨0, 1⟩ = Except.ok w' ∧
      w'.entities.get ⟨0, 1⟩ = none ∧
      w'.world_info.rendering.batchContains c6Render.1 = false ∧
      w'.world_info.physics.collider_set.get c6Coll.1 = none ∧
      w'.world_info.physics.rigid_body_set.get c6Body.1 = none ∧
      (∀ id', id' ≠ ⟨0, 1⟩ → w'.entities.get id' = c6World.entities.get id') ∧
      (∀ h', h' ≠ c6Render.1 → w'.world_info.rendering.instanceData h'
          = c6World.world_info.rendering.instanceData h') ∧
      (∀ b', b' ≠ c6Body.1 → w'.world_info.physics.rigid_body_set.get b'
          = c6World.world_info.physics.rigid_body_set.get b') ∧
      (∀ c' v, c' ≠ c6Coll.1 → c6World.world_info.physics.collider_set.get c' = some v →
        v.parent ≠ c6Body.1 → w'.world_info.physics.collider_set.get c' = some v)) :=
  ⟨⟨rfl, rfl, rfl, rfl, rfl, rfl, rfl, by decide⟩,
   world_remove_entity_releases c6World ⟨0, 1⟩ c6Entity c6Render.1 c6Coll.1 c6Body.1
     ⟨⟨0, 1⟩, ⟨1, 1⟩⟩ c6Set (0, Transform.default.as_model_matrix)
     rfl rfl rfl rfl rfl rfl rfl (by decide)⟩

/-! ## Module definitions and the directory loader (`src/space_craft.rs`) -/

namespace SpaceCraft

/-- `Transform` from `src/space_craft.rs` lines 7-11. -/
structure Transform where
  position : Vec3
  orientation : Quat
deriving DecidableEq, Repr

/-- `ModuleModel` (lines 13-18). -/
structure ModuleModel where
  offset : Transform
  mesh : String
  material : String
deriving DecidableEq, Repr

/-- `ColliderType` (lines 20-23). -/
inductive ColliderType where
  | mesh (s : String)
deriving DecidableEq, Repr

/-- `ModuleCollider` (lines 25-29). -/
structure ModuleCollider where
  offset : Transform
  collider_type : ColliderType
deriving DecidableEq, Repr

/-- `GridDirection` (lines 31-39). -/
inductive GridDirection where
  | forward
  | back
  | left
  | right
  | up
  | down
deriving DecidableEq, Repr

/-- `glam::IVec3` (payload integers). -/
structure IVec3 where
  x : Int
  y : Int
  z : Int
deriving DecidableEq, Repr

/-- `GridDockingPort` (lines 41-45). -/
structure GridDockingPort where
  offset : IVec3
  direction : GridDirection
deriving DecidableEq, Repr

/-- `ModuleHardPoint` (lines 47-51); `size` is a `u16` payload. -/
structure ModuleHardPoint where
  size : Nat
  offset : Transform
deriving DecidableEq, Repr

/-- `ModuleTank` (lines 53-59). -/
structure ModuleTank where
  offset : Vec3
  capacity : F32
deriving DecidableEq, Repr

/-- `ModuleDefinition` (lines 61-90). -/
structure ModuleDefinition where
  name : String
  categories : List String
  base_mass : F32
  local_max_health : Option F32
  damage_multiplier : F32
  connectors : List GridDockingPort
  hard_points : List ModuleHardPoint
  tanks : List ModuleTank
  exterior_model : Option ModuleModel
  exterior_colliders : List ModuleCollider
  interior : Option Unit
deriving DecidableEq, Repr

/-- One filesystem directory entry as `load_modules_from_directory`
observes it: a regular file (path, optional extension, read result), a
readable subdirectory with its entries, a subdirectory whose `read_dir`
fails, an entry that is neither a regular file nor a directory, or an
entry the iterator itself fails to yield (`Err(e)` branch). -/
inductive DirEntry where
  | file (path : String) (ext : Option String) (content : Except String String)
  | dirOk (path : String) (entries : List DirEntry)
  | dirErr (path : String)
  | notFileOrDir (path : String)
  | entryErr (msg : String)

/-- The module table: `HashMap<String, ModuleDefinition>`. -/
abbrev Table := List (String × ModuleDefinition)

mutual

/-- Process one directory entry (`src/space_craft.rs` lines 97-125):
regular files with extension exactly `"module"` are read, parsed, and
inserted unless the name is already taken (then only an error is logged);
failures to read, parse, or list are logged and skipped; subdirectories
recurse.  `parse` is the external `serde_json::from_str`. -/
def processEntry (parse : String → Except String ModuleDefinition) :
    DirEntry → Table × List String → Table × List String
  | DirEntry.file path ext content, (table, log) =>
    if ext = some "module" then
      match content with
      | Except.error e =>
        (table, log ++ ["Failed to read file " ++ path ++ ": " ++ e])
      | Except.ok contents =>
        match parse contents with
        | Except.error e =>
          (table, log ++ ["Failed to deserialize file " ++ path ++ ": " ++ e])
        | Except.ok module =>
          if (alistLookup table module.name).isSome then
            (table,
              log ++ ["Duplicate module name " ++ module.name ++ " in file " ++ path])
          else
            (alistInsert table module.name module, log)
    else (table, log)
  | DirEntry.dirOk _ entries, st => processEntries parse entries st
  | DirEntry.dirErr path, (table, log) =>
    (table, log ++ ["Failed to read directory " ++ path])
  | DirEntry.notFileOrDir _, st => st
  | DirEntry.entryErr msg, (table, log) =>
    (table, log ++ ["Failed to read directory entry: " ++ msg])

/-- Process a directory's entries in iteration order. -/
def processEntries (parse : String → Except String ModuleDefinition) :
    List DirEntry → Table × List String → Table × List String
  | [], st => st
  | e :: rest, st => processEntries parse rest (processEntry parse e st)

end

/-- `load_modules_from_directory` (`src/space_craft.rs` lines 92-130):
`read_dir` the root (logging a failure), then process every entry. -/
def load_modules_from_directory (parse : String → Except String ModuleDefinition)
    (root_path : String) (root : Except String (List DirEntry))
    (table : Table) (log : List String) : Table × List String :=
  match root with
  | Except.ok entries => processEntries parse entries (table, log)
  | Except.error _ => (table, log ++ ["Failed to read directory " ++ root_path])

end SpaceCraft

namespace SpaceCraft

@[simp]
theorem processEntries_nil (parse : String → Except String ModuleDefinition)
    (st : Table × List String) : processEntries parse [] st = st := rfl

@[simp]
theorem processEntries_cons (parse : String → Except String ModuleDefinition)
    (e : DirEntry) (rest : List DirEntry) (st : Table × List String) :
    processEntries parse (e :: rest) st
      = processEntries parse rest (processEntry parse e st) := rfl

/-- The loader folds over concatenated entry lists. -/
theorem processEntries_append (parse : String → Except String ModuleDefinition)
    (as bs : List DirEntry) (st : Table × List String) :
    processEntries parse (as ++ bs) st
      = processEntries parse bs (processEntries parse as st) := by
  induction as generalizing st with
  | nil => simp
  | cons a rest ih => simp [ih]

mutual

/-- The table component of the loader state never depends on the log. -/
theorem processEntry_table_log (parse : String → Except String ModuleDefinition)
    (e : DirEntry) (t : Table) (l l' : List String) :
    (processEntry parse e (t, l)).1 = (processEntry parse e (t, l')).1 := by
  cases e with
  | file path ext content =>
    by_cases hext : ext = some "module"
    · cases content with
      | error err => simp [processEntry, hext]
      | ok c =>
        cases hp : parse c with
        | error err => simp [processEntry, hext, hp]
        | ok m =>
          by_cases hdup : (alistLookup t m.name).isSome
          · simp [processEntry, hext, hp, hdup]
          · simp [processEntry, hext, hp, hdup]
    · simp [processEntry, hext]
  | dirOk p entries => exact processEntries_table_log parse entries t l l'
  | dirErr p => rfl
  | notFileOrDir p => rfl
  | entryErr m => rfl

/-- The table component of the loader state never depends on the log. -/
theorem processEntries_table_log (parse : String → Except String ModuleDefinition)
    (es : List DirEntry) (t : Table) (l l' : List String) :
    (processEntries parse es (t, l)).1 = (processEntries parse es (t, l')).1 := by
  cases es with
  | nil => rfl
  | cons e rest =>
    have h1 := processEntry_table_log parse e t l l'
    calc (processEntries parse (e :: rest) (t, l)).1
        = (processEntries parse rest ((processEntry parse e (t, l)).1,
            (processEntry parse e (t, l)).2)).1 := rfl
      _ = (processEntries parse rest ((processEntry parse e (t, l')).1,
            (processEntry parse e (t, l)).2)).1 := by rw [h1]
      _ = (processEntries parse rest ((processEntry parse e (t, l')).1,
            (processEntry parse e (t, l')).2)).1 :=
          processEntries_table_log parse rest _ _ _
      _ = (processEntries parse (e :: rest) (t, l')).1 := rfl

end

end SpaceCraft

namespace SpaceCraft

mutual

/-- Whether an entry's subtree contains a successfully-read and parsed
`.module` file declaring the given name. -/
def declaresEntry (parse : String → Except String ModuleDefinition) :
    DirEntry → String → Bool
  | DirEntry.file _ ext content, n =>
    (ext == some "module") &&
      (match content with
       | Except.ok c =>
         match parse c with
         | Except.ok m => m.name == n
         | Except.error _ => false
       | Except.error _ => false)
  | DirEntry.dirOk _ entries, n => declaresEntries parse entries n
  | DirEntry.dirErr _, _ => false
  | DirEntry.notFileOrDir _, _ => false
  | DirEntry.entryErr _, _ => false

/-- Whether any entry of the list declares the given name. -/
def declaresEntries (parse : String → Except String ModuleDefinition) :
    List DirEntry → String → Bool
  | [], _ => false
  | e :: rest, n => declaresEntry parse e n || declaresEntries parse rest n

end

/-- Processing a readable, parsable `.module` file whose name is new
inserts its definition (first writer wins). -/
theorem processEntry_module_file (parse : String → Except String ModuleDefinition)
    (path c : String) (m : ModuleDefinition) (t : Table) (l : List String)
    (hp : parse c = Except.ok m) (habs : alistLookup t m.name = none) :
    processEntry parse (DirEntry.file path (some "module") (Except.ok c)) (t, l)
      = (alistInsert t m.name m, l) := by
  simp [processEntry, hp, habs]

/-- Processing a readable, parsable `.module` file whose name is already
taken leaves the table alone and logs the duplicate. -/
theorem processEntry_duplicate_file (parse : String → Except String ModuleDefinition)
    (path c : String) (m : ModuleDefinition) (t : Table) (l : List String)
    (hp : parse c = Except.ok m) (htaken : (alistLookup t m.name).isSome) :
    processEntry parse (DirEntry.file path (some "module") (Except.ok c)) (t, l)
      = (t, l ++ ["Duplicate module name " ++ m.name ++ " in file " ++ path]) := by
  simp [processEntry, hp, htaken]

mutual

/-- A name already mapped in the table keeps its definition through any
entry: the loader only inserts absent names, never removes or
overwrites. -/
theorem lookup_preserved_entry (parse : String → Except String ModuleDefinition)
    (e : DirEntry) (st : Table × List String) {n : String} {m : ModuleDefinition}
    (h : alistLookup st.1 n = some m) :
    alistLookup (processEntry parse e st).1 n = some m := by
  obtain ⟨t, l⟩ := st
  cases e with
  | file path ext content =>
    by_cases hext : ext = some "module"
    · cases content with
      | error err => simpa [processEntry, hext] using h
      | ok c =>
        cases hp : parse c with
        | error err => simpa [processEntry, hext, hp] using h
        | ok md =>
          by_cases hdup : (alistLookup t md.name).isSome
          · simpa [processEntry, hext, hp, hdup] using h
          · have hne : n ≠ md.name := by
              intro heq
              rw [heq] at h
              simp [h] at hdup
            have habs : alistLookup t md.name = none := by
              cases hl : alistLookup t md.name with
              | none => rfl
              | some x => rw [hl] at hdup; simp at hdup
            rw [hext, processEntry_module_file parse path c md t l hp habs]
            show alistLookup (alistInsert t md.name md) n = some m
            rw [alistLookup_insert_ne _ _ hne]
            exact h
    · simpa [processEntry, hext] using h
  | dirOk p entries => exact lookup_preserved_entries parse entries (t, l) h
  | dirErr p => exact h
  | notFileOrDir p => exact h
  | entryErr msg => exact h

/-- A name already mapped in the table keeps its definition through any
entry list. -/
theorem lookup_preserved_entries (parse : String → Except String ModuleDefinition)
    (es : List DirEntry) (st : Table × List String) {n : String} {m : ModuleDefinition}
    (h : alistLookup st.1 n = some m) :
    alistLookup (processEntries parse es st).1 n = some m := by
  cases es with
  | nil => exact h
  | cons e rest =>
    exact lookup_preserved_entries parse rest _ (lookup_preserved_entry parse e st h)

end

mutual

/-- A name absent from the table and not declared in an entry remains
absent after that entry. -/
theorem lookup_none_entry (parse : String → Except String ModuleDefinition)
    (e : DirEntry) (st : Table × List String) {n : String}
    (h : alistLookup st.1 n = none) (hd : declaresEntry parse e n = false) :
    alistLookup (processEntry parse e st).1 n = none := by
  obtain ⟨t, l⟩ := st
  cases e with
  | file path ext content =>
    by_cases hext : ext = some "module"
    · cases content with
      | error err => simpa [processEntry, hext] using h
      | ok c =>
        cases hp : parse c with
        | error err => simpa [processEntry, hext, hp] using h
        | ok md =>
          have hnem : (md.name == n) = false := by
            simpa [declaresEntry, hext, hp] using hd
          have hne : n ≠ md.name :=
            fun heq => absurd (beq_eq_false_iff_ne.mp hnem) (by rw [heq]; simp)
          by_cases hdup : (alistLookup t md.name).isSome
          · simpa [processEntry, hext, hp, hdup] using h
          · have habs : alistLookup t md.name = none := by
              cases hl : alistLookup t md.name with
              | none => rfl
              | some x => rw [hl] at hdup; simp at hdup
            rw [hext, processEntry_module_file parse path c md t l hp habs]
            show alistLookup (alistInsert t md.name md) n = none
            rw [alistLookup_insert_ne _ _ hne]
            exact h
    · simpa [processEntry, hext] using h
  | dirOk p entries =>
    exact lookup_none_entries parse entries (t, l) h (by simpa [declaresEntry] using hd)
  | dirErr p => exact h
  | notFileOrDir p => exact h
  | entryErr msg => exact h

/-- A name absent from the table and not declared in any entry of a list
remains absent after the whole list. -/
theorem lookup_none_entries (parse : String → Except String ModuleDefinition)
    (es : List DirEntry) (st : Table × List String) {n : String}
    (h : alistLookup st.1 n = none) (hd : declaresEntries parse es n = false) :
    alistLookup (processEntries parse es st).1 n = none := by
  cases es with
  | nil => exact h
  | cons e rest =>
    rw [declaresEntries] at hd
    have hd2 := Bool.or_eq_false_iff.mp hd
    exact lookup_none_entries parse rest _
      (lookup_none_entry parse e st h hd2.1) hd2.2

end


end SpaceCraft

/-- The keys of an erased association list form a sublist of the original
keys. -/
theorem alistErase_map_fst_sublist {K V : Type} [DecidableEq K] (m : List (K × V))
    (k : K) : ((alistErase m k).map Prod.fst).Sublist (m.map Prod.fst) := by
  induction m with
  | nil => simp
  | cons e rest ih =>
    rw [alistErase_cons]
    by_cases he : e.1 = k
    · rw [if_pos he, List.map_cons]
      exact ih.trans (List.sublist_cons_self _ _)
    · rw [if_neg he, List.map_cons, List.map_cons]
      exact ih.cons₂ e.1

/-- Inserting into an association list with pairwise-distinct keys keeps
the keys pairwise distinct. -/
theorem alistInsert_keys_nodup {K V : Type} [DecidableEq K] (m : List (K × V)) (k : K)
    (v : V) (h : (m.map Prod.fst).Nodup) :
    ((alistInsert m k v).map Prod.fst).Nodup := by
  unfold alistInsert
  rw [List.map_cons, List.nodup_cons]
  constructor
  · intro hmem
    obtain ⟨e, hmem', he⟩ := List.mem_map.mp hmem
    exact ne_of_mem_alistErase hmem' he
  · exact h.sublist (alistErase_map_fst_sublist m k)

/-- With pairwise-distinct keys, a resolvable key occurs in exactly one
entry. -/
theorem alist_count_one {K V : Type} [DecidableEq K] (m : List (K × V))
    (hnodup : (m.map Prod.fst).Nodup) {k : K} {v : V}
    (h : alistLookup m k = some v) :
    (m.filter (fun e => e.1 == k)).length = 1 := by
  induction m with
  | nil => simp at h
  | cons e rest ih =>
    rw [List.map_cons, List.nodup_cons] at hnodup
    rw [alistLookup_cons] at h
    by_cases he : e.1 = k
    · have hrest : rest.filter (fun x => x.1 == k) = [] := by
        rw [List.filter_eq_nil_iff]
        intro x hx
        intro hbeq
        have : x.1 = k := by simpa using hbeq
        exact hnodup.1 (by rw [he, ← this]; exact List.mem_map_of_mem Prod.fst hx)
      rw [List.filter_cons]
      simp [he, hrest]
    · rw [if_neg he] at h
      rw [List.filter_cons]
      simp only [he, beq_iff_eq, if_false]
      exact ih hnodup.2 h

namespace SpaceCraft

mutual

/-- Processing an entry keeps the table's keys pairwise distinct. -/
theorem keys_nodup_entry (parse : String → Except String ModuleDefinition)
    (e : DirEntry) (st : Table × List String)
    (h : (st.1.map Prod.fst).Nodup) :
    ((processEntry parse e st).1.map Prod.fst).Nodup := by
  obtain ⟨t, l⟩ := st
  cases e with
  | file path ext content =>
    by_cases hext : ext = some "module"
    · cases content with
      | error err => simpa [processEntry, hext] using h
      | ok c =>
        cases hp : parse c with
        | error err => simpa [processEntry, hext, hp] using h
        | ok md =>
          by_cases hdup : (alistLookup t md.name).isSome
          · simpa [processEntry, hext, hp, hdup] using h
          · have habs : alistLookup t md.name = none := by
              cases hl : alistLookup t md.name with
              | none => rfl
              | some x => rw [hl] at hdup; simp at hdup
            rw [hext, processEntry_module_file parse path c md t l hp habs]
            exact alistInsert_keys_nodup t md.name md h
    · simpa [processEntry, hext] using h
  | dirOk p entries => exact keys_nodup_entries parse entries (t, l) h
  | dirErr p => exact h
  | notFileOrDir p => exact h
  | entryErr msg => exact h

/-- Processing an entry list keeps the table's keys pairwise distinct. -/
theorem keys_nodup_entries (parse : String → Except String ModuleDefinition)
    (es : List DirEntry) (st : Table × List String)
    (h : (st.1.map Prod.fst).Nodup) :
    ((processEntries parse es st).1.map Prod.fst).Nodup := by
  cases es with
  | nil => exact h
  | cons e rest =>
    exact keys_nodup_entries parse rest _ (keys_nodup_entry parse e st h)

end

mutual

/-- Processing an entry only appends to the log. -/
theorem log_grows_entry (parse : String → Except String ModuleDefinition)
    (e : DirEntry) (st : Table × List String) :
    ∃ suffix, (processEntry parse e st).2 = st.2 ++ suffix := by
  obtain ⟨t, l⟩ := st
  cases e with
  | file path ext content =>
    by_cases hext : ext = some "module"
    · cases content with
      | error err =>
        exact ⟨["Failed to read file " ++ path ++ ": " ++ err],
          by simp [processEntry, hext]⟩
      | ok c =>
        cases hp : parse c with
        | error err =>
          exact ⟨["Failed to deserialize file " ++ path ++ ": " ++ err],
            by simp [processEntry, hext, hp]⟩
        | ok md =>
          by_cases hdup : (alistLookup t md.name).isSome
          · exact ⟨["Duplicate module name " ++ md.name ++ " in file " ++ path],
              by simp [processEntry, hext, hp, hdup]⟩
          · have habs : alistLookup t md.name = none := by
              cases hl : alistLookup t md.name with
              | none => rfl
              | some x => rw [hl] at hdup; simp at hdup
            refine ⟨[], ?_⟩
            rw [hext, processEntry_module_file parse path c md t l hp habs]
            simp
    · exact ⟨[], by simp [processEntry, hext]⟩
  | dirOk p entries => exact log_grows_entries parse entries (t, l)
  | dirErr p => exact ⟨_, rfl⟩
  | notFileOrDir p => exact ⟨[], by simp [processEntry]⟩
  | entryErr msg => exact ⟨_, rfl⟩

/-- Processing an entry list only appends to the log. -/
theorem log_grows_entries (parse : String → Except String ModuleDefinition)
    (es : List DirEntry) (st : Table × List String) :
    ∃ suffix, (processEntries parse es st).2 = st.2 ++ suffix := by
  cases es with
  | nil => exact ⟨[], by simp⟩
  | cons e rest =>
    obtain ⟨s1, h1⟩ := log_grows_entry parse e st
    obtain ⟨s2, h2⟩ := log_grows_entries parse rest (processEntry parse e st)
    exact ⟨s1 ++ s2, by rw [processEntries_cons, h2, h1, List.append_assoc]⟩

end

end SpaceCraft


namespace SpaceCraft

/-- C8: when two `.module` files in one load pass declare the same
logical name (and no file before them declares it), the final table holds
exactly one entry under that name — the first file's definition — an
error is logged for the later file, and loading continues with the
remaining files: the whole run equals the run up to the later file,
plus that single log line, followed by the remaining files. -/
theorem load_duplicate_name_first_wins
    (parse : String → Except String ModuleDefinition)
    (pre mid post : List DirEntry) (p1 p2 c1 c2 : String)
    (m1 m2 : ModuleDefinition)
    (hp1 : parse c1 = Except.ok m1) (hp2 : parse c2 = Except.ok m2)
    (hname : m2.name = m1.name)
    (hpre : declaresEntries parse pre m1.name = false) :
    alistLookup (processEntries parse
        (pre ++ DirEntry.file p1 (some "module") (Except.ok c1) ::
          (mid ++ DirEntry.file p2 (some "module") (Except.ok c2) :: post))
        ([], [])).1 m1.name = some m1 ∧
    ((processEntries parse
        (pre ++ DirEntry.file p1 (some "module") (Except.ok c1) ::
          (mid ++ DirEntry.file p2 (some "module") (Except.ok c2) :: post))
        ([], [])).1.filter (fun en => en.1 == m1.name)).length = 1 ∧
    ("Duplicate module name " ++ m2.name ++ " in file " ++ p2)
      ∈ (processEntries parse
        (pre ++ DirEntry.file p1 (some "module") (Except.ok c1) ::
          (mid ++ DirEntry.file p2 (some "module") (Except.ok c2) :: post))
        ([], [])).2 ∧
    processEntries parse
        (pre ++ DirEntry.file p1 (some "module") (Except.ok c1) ::
          (mid ++ DirEntry.file p2 (some "module") (Except.ok c2) :: post))
        ([], [])
      = processEntries parse post
          ((processEntries parse (pre ++ DirEntry.file p1 (some "module")
              (Except.ok c1) :: mid) ([], [])).1,
           (processEntries parse (pre ++ DirEntry.file p1 (some "module")
              (Except.ok c1) :: mid) ([], [])).2
             ++ ["Duplicate module name " ++ m2.name ++ " in file " ++ p2]) := by
  have hS0 : alistLookup (processEntries parse pre
      (([] : Table), ([] : List String))).1 m1.name = none :=
    lookup_none_entries parse pre ([], []) rfl hpre
  have hins := processEntry_module_file parse p1 c1 m1
    (processEntries parse pre (([] : Table), ([] : List String))).1
    (processEntries parse pre (([] : Table), ([] : List String))).2 hp1 hS0
  have hR1mid : alistLookup (processEntries parse mid (processEntry parse
      (DirEntry.file p1 (some "module") (Except.ok c1))
      (processEntries parse pre (([] : Table), ([] : List String))))).1 m1.name
      = some m1 := by
    apply lookup_preserved_entries
    show alistLookup (processEntry parse
      (DirEntry.file p1 (some "module") (Except.ok c1))
      ((processEntries parse pre (([] : Table), ([] : List String))).1,
       (processEntries parse pre (([] : Table), ([] : List String))).2)).1 m1.name
      = some m1
    rw [hins]
    exact alistLookup_insert_self _ _ _
  have htaken : (alistLookup (processEntries parse mid (processEntry parse
      (DirEntry.file p1 (some "module") (Except.ok c1))
      (processEntries parse pre (([] : Table), ([] : List String))))).1
      m2.name).isSome := by
    rw [hname, hR1mid]
    rfl
  have hdupf2 := processEntry_duplicate_file parse p2 c2 m2
    (processEntries parse mid (processEntry parse
      (DirEntry.file p1 (some "module") (Except.ok c1))
      (processEntries parse pre (([] : Table), ([] : List String))))).1
    (processEntries parse mid (processEntry parse
      (DirEntry.file p1 (some "module") (Except.ok c1))
      (processEntries parse pre (([] : Table), ([] : List String))))).2 hp2 htaken
  have h4 : processEntries parse
      (pre ++ DirEntry.file p1 (some "module") (Except.ok c1) ::
        (mid ++ DirEntry.file p2 (some "module") (Except.ok c2) :: post))
      ([], [])
      = processEntries parse post
          ((processEntries parse (pre ++ DirEntry.file p1 (some "module")
              (Except.ok c1) :: mid) ([], [])).1,
           (processEntries parse (pre ++ DirEntry.file p1 (some "module")
              (Except.ok c1) :: mid) ([], [])).2
             ++ ["Duplicate module name " ++ m2.name ++ " in file " ++ p2]) := by
    simp only [processEntries_append, processEntries_cons]
    congr 1
  refine ⟨?_, ?_, ?_, h4⟩
  · rw [h4]
    apply lookup_preserved_entries
    show alistLookup (processEntries parse (pre ++ DirEntry.file p1 (some "module")
        (Except.ok c1) :: mid) ([], [])).1 m1.name = some m1
    rw [processEntries_append, processEntries_cons]
    exact hR1mid
  · apply alist_count_one
    · exact keys_nodup_entries parse _ ([], []) (by simp)
    · rw [h4]
      apply lookup_preserved_entries
      show alistLookup (processEntries parse (pre ++ DirEntry.file p1 (some "module")
          (Except.ok c1) :: mid) ([], [])).1 m1.name = some m1
      rw [processEntries_append, processEntries_cons]
      exact hR1mid
  · rw [h4]
    obtain ⟨suffix, hs⟩ := log_grows_entries parse post
      ((processEntries parse (pre ++ DirEntry.file p1 (some "module")
          (Except.ok c1) :: mid) ([], [])).1,
       (processEntries parse (pre ++ DirEntry.file p1 (some "module")
          (Except.ok c1) :: mid) ([], [])).2
         ++ ["Duplicate module name " ++ m2.name ++ " in file " ++ p2])
    rw [hs]
    simp

end SpaceCraft

namespace SpaceCraft

mutual

/-- Whether an entry's subtree contains a regular `.module` file that
reads and parses to exactly the given definition. -/
def providesEntry (parse : String → Except String ModuleDefinition) :
    DirEntry → ModuleDefinition → Bool
  | DirEntry.file _ ext content, m =>
    (ext == some "module") &&
      (match content with
       | Except.ok c =>
         match parse c with
         | Except.ok m' => m' == m
         | Except.error _ => false
       | Except.error _ => false)
  | DirEntry.dirOk _ entries, m => providesEntries parse entries m
  | DirEntry.dirErr _, _ => false
  | DirEntry.notFileOrDir _, _ => false
  | DirEntry.entryErr _, _ => false

/-- Whether any entry of the list provides the given definition. -/
def providesEntries (parse : String → Except String ModuleDefinition) :
    List DirEntry → ModuleDefinition → Bool
  | [], _ => false
  | e :: rest, m => providesEntry parse e m || providesEntries parse rest m

end

mutual

/-- Every table entry a directory entry adds comes from a regular
`.module` file in its subtree that parses to exactly that definition. -/
theorem provenance_entry (parse : String → Except String ModuleDefinition)
    (e : DirEntry) (st : Table × List String) {n : String} {m : ModuleDefinition}
    (h : alistLookup (processEntry parse e st).1 n = some m) :
    alistLookup st.1 n = some m ∨
      (providesEntry parse e m = true ∧ m.name = n) := by
  obtain ⟨t, l⟩ := st
  cases e with
  | file path ext content =>
    by_cases hext : ext = some "module"
    · cases content with
      | error err => exact Or.inl (by simpa [processEntry, hext] using h)
      | ok c =>
        cases hp : parse c with
        | error err => exact Or.inl (by simpa [processEntry, hext, hp] using h)
        | ok md =>
          by_cases hdup : (alistLookup t md.name).isSome
          · exact Or.inl (by simpa [processEntry, hext, hp, hdup] using h)
          · have habs : alistLookup t md.name = none := by
              cases hl : alistLookup t md.name with
              | none => rfl
              | some x => rw [hl] at hdup; simp at hdup
            rw [hext, processEntry_module_file parse path c md t l hp habs] at h
            by_cases hkey : n = md.name
            · subst hkey
              rw [alistLookup_insert_self] at h
              have hm : md = m := by simpa using h
              subst hm
              exact Or.inr ⟨by simp [providesEntry, hext, hp], rfl⟩
            · rw [alistLookup_insert_ne _ _ hkey] at h
              exact Or.inl h
    · exact Or.inl (by simpa [processEntry, hext] using h)
  | dirOk p entries =>
    cases provenance_entries parse entries (t, l) h with
    | inl hl => exact Or.inl hl
    | inr hr => exact Or.inr ⟨by simpa [providesEntry] using hr.1, hr.2⟩
  | dirErr p => exact Or.inl h
  | notFileOrDir p => exact Or.inl h
  | entryErr msg => exact Or.inl h

/-- Every table entry a load pass adds comes from a regular `.module`
file in the pass that parses to exactly that definition. -/
theorem provenance_entries (parse : String → Except String ModuleDefinition)
    (es : List DirEntry) (st : Table × List String) {n : String} {m : ModuleDefinition}
    (h : alistLookup (processEntries parse es st).1 n = some m) :
    alistLookup st.1 n = some m ∨
      (providesEntries parse es m = true ∧ m.name = n) := by
  cases es with
  | nil => exact Or.inl h
  | cons e rest =>
    rw [processEntries_cons] at h
    cases provenance_entries parse rest (processEntry parse e st) h with
    | inl hl =>
      cases provenance_entry parse e st hl with
      | inl h2 => exact Or.inl h2
      | inr h2 => exact Or.inr ⟨by simp [providesEntries, h2.1], h2.2⟩
    | inr hr => exact Or.inr ⟨by simp [providesEntries, hr.1], hr.2⟩

end

end SpaceCraft

namespace SpaceCraft

/-- C10: the loader inserts entries only from regular files with extension
exactly `"module"` (recursing into subdirectories), and a file that fails
to read or to parse is logged and skipped atomically: it contributes one
log line and leaves the module table exactly as if the file did not
exist. -/
theorem load_only_module_files_and_atomic
    (parse : String → Except String ModuleDefinition)
    (pre post : List DirEntry) (path : String) (content : Except String String)
    (es : List DirEntry) (st : Table × List String) (n : String)
    (m : ModuleDefinition)
    (hfail : (∃ e, content = Except.error e) ∨
      (∃ c e, content = Except.ok c ∧ parse c = Except.error e)) :
    (∀ p sub st0, processEntry parse (DirEntry.dirOk p sub) st0
        = processEntries parse sub st0) ∧
    (alistLookup (processEntries parse es st).1 n = some m →
      alistLookup st.1 n = some m ∨
        (providesEntries parse es m = true ∧ m.name = n)) ∧
    (∃ msg,
      processEntries parse
          (pre ++ DirEntry.file path (some "module") content :: post) st
        = processEntries parse post
            ((processEntries parse pre st).1,
             (processEntries parse pre st).2 ++ [msg])) ∧
    (processEntries parse
        (pre ++ DirEntry.file path (some "module") content :: post) st).1
      = (processEntries parse (pre ++ post) st).1 := by
  have hfailstep : ∃ msg, ∀ t l, processEntry parse
      (DirEntry.file path (some "module") content) (t, l) = (t, l ++ [msg]) := by
    rcases hfail with ⟨e, rfl⟩ | ⟨c, e, rfl, hpe⟩
    · exact ⟨"Failed to read file " ++ path ++ ": " ++ e,
        fun t l => by simp [processEntry]⟩
    · exact ⟨"Failed to deserialize file " ++ path ++ ": " ++ e,
        fun t l => by simp [processEntry, hpe]⟩
  obtain ⟨msg, hmsg⟩ := hfailstep
  have hstep : processEntry parse (DirEntry.file path (some "module") content)
      (processEntries parse pre st)
      = ((processEntries parse pre st).1, (processEntries parse pre st).2 ++ [msg]) :=
    hmsg _ _
  refine ⟨fun p sub st0 => rfl, provenance_entries parse es st, ⟨msg, ?_⟩, ?_⟩
  · rw [processEntries_append, processEntries_cons, hstep]
  · calc (processEntries parse
        (pre ++ DirEntry.file path (some "module") content :: post) st).1
        = (processEntries parse post ((processEntries parse pre st).1,
            (processEntries parse pre st).2 ++ [msg])).1 := by
          rw [processEntries_append, processEntries_cons, hstep]
      _ = (processEntries parse post ((processEntries parse pre st).1,
            (processEntries parse pre st).2)).1 :=
          processEntries_table_log parse post _ _ _
      _ = (processEntries parse (pre ++ post) st).1 := by
          rw [processEntries_append]

end SpaceCraft

namespace SpaceCraft

/-- A minimal module definition with the given name. -/
def mkModule (n : String) : ModuleDefinition :=
  { name := n, categories := [], base_mass := ⟨0⟩, local_max_health := none,
    damage_multiplier := ⟨0x3f800000⟩, connectors := [], hard_points := [],
    tanks := [], exterior_model := none, exterior_colliders := [], interior := none }

/-- A second definition that also declares the name "alpha". -/
def c8m2 : ModuleDefinition := { mkModule "alpha" with base_mass := ⟨1⟩ }

/-- A concrete stand-in for `serde_json::from_str`: "A" and "B" both
declare "alpha" (with different masses), "C" declares "gamma", anything
else fails to parse. -/
def testParse (s : String) : Except String ModuleDefinition :=
  if s = "A" then Except.ok (mkModule "alpha")
  else if s = "B" then Except.ok c8m2
  else if s = "C" then Except.ok (mkModule "gamma")
  else Except.error "invalid JSON"

/-- Three module files, the second a duplicate of the first's name. -/
def c8Files : List DirEntry :=
  [DirEntry.file "a.module" (some "module") (Except.ok "A"),
   DirEntry.file "b.module" (some "module") (Except.ok "B"),
   DirEntry.file "c.module" (some "module") (Except.ok "C")]

/-- Witness for C8: loading a.module and b.module (both named "alpha")
then c.module keeps a.module's definition, counts one "alpha" entry, and
logs the duplicate for b.module. -/
theorem load_duplicate_name_first_wins_witness :
    (testParse "A" = Except.ok (mkModule "alpha") ∧
      testParse "B" = Except.ok c8m2 ∧
      c8m2.name = (mkModule "alpha").name ∧
      declaresEntries testParse [] (mkModule "alpha").name = false) ∧
    (alistLookup (processEntries testParse c8Files ([], [])).1 "alpha"
        = some (mkModule "alpha") ∧
      ((processEntries testParse c8Files ([], [])).1.filter
          (fun en => en.1 == "alpha")).length = 1 ∧
      ("Duplicate module name " ++ "alpha" ++ " in file " ++ "b.module")
        ∈ (processEntries testParse c8Files ([], [])).2) := by
  have h := load_duplicate_name_first_wins testParse [] []
    [DirEntry.file "c.module" (some "module") (Except.ok "C")]
    "a.module" "b.module" "A" "B" (mkModule "alpha") c8m2 rfl rfl rfl rfl
  exact ⟨⟨rfl, rfl, rfl, rfl⟩, ⟨h.1, h.2.1, h.2.2.1⟩⟩

/-- A subdirectory holding one good module file. -/
def c10Post : List DirEntry :=
  [DirEntry.dirOk "sub" [DirEntry.file "c.module" (some "module") (Except.ok "C")]]

/-- A load pass with one unreadable module file and the subdirectory. -/
def c10Es : List DirEntry :=
  [] ++ DirEntry.file "bad.module" (some "module") (Except.error "io") :: c10Post

/-- Witness for C10: the unreadable file contributes one log line and no
table entry, the subdirectory's file still loads, and the loaded entry's
provenance is a `.module` file of the pass. -/
theorem load_only_module_files_and_atomic_witness :
    (∃ e, (Except.error "io" : Except String String) = Except.error e) ∧
    ((∀ p sub st0, processEntry testParse (DirEntry.dirOk p sub) st0
        = processEntries testParse sub st0) ∧
      (alistLookup (processEntries testParse c10Es (([], []) : Table × List String)).1
          "gamma" = some (mkModule "gamma") →
        alistLookup ((([], []) : Table × List String)).1 "gamma"
            = some (mkModule "gamma") ∨
          (providesEntries testParse c10Es (mkModule "gamma") = true ∧
            (mkModule "gamma").name = "gamma")) ∧
      (∃ msg,
        processEntries testParse
            ([] ++ DirEntry.file "bad.module" (some "module") (Except.error "io")
              :: c10Post) (([], []) : Table × List String)
          = processEntries testParse c10Post
              ((processEntries testParse [] (([], []) : Table × List String)).1,
               (processEntries testParse [] (([], []) : Table × List String)).2
                 ++ [msg])) ∧
      (processEntries testParse
          ([] ++ DirEntry.file "bad.module" (some "module") (Except.error "io")
            :: c10Post) (([], []) : Table × List String)).1
        = (processEntries testParse ([] ++ c10Post)
            (([], []) : Table × List String)).1) ∧
    (providesEntries testParse c10Es (mkModule "gamma") = true ∧
      (mkModule "gamma").name = "gamma") := by
  have h := load_only_module_files_and_atomic testParse [] c10Post "bad.module"
    (Except.error "io") c10Es ([], []) "gamma" (mkModule "gamma")
    (Or.inl ⟨"io", rfl⟩)
  refine ⟨⟨"io", rfl⟩, h, ?_⟩
  have hb := h.2.1 (by decide)
  cases hb with
  | inl hl => exact absurd hl (by simp [alistLookup])
  | inr hr => exact hr

end SpaceCraft
